import Mathlib

/-!
Verification of the form-discovery and script-generation core of this
repository (`form_analyzer.py`) against its specification.

The Python code is shallowly embedded: each Python routine of the
`FormAnalyzer` class becomes a pure Lean function over an explicit model of
the data it inspects (the DOM elements returned by the browser driver become
records holding exactly the attributes the code reads; the browser session
becomes an explicit `Option Unit` driver handle threaded through
`analyze_page`).  Python `x or y` on strings (first truthy value),
`get_attribute` (returning `None` or a string, modelled by `Option String`),
and exception handling (modelled by `Option`-valued lookups plus the
catch-and-default behaviour of each `try`/`except` block) are translated
explicitly.
-/

/-! ## Small Python-semantics helpers -/

/-- Python `a or b` for strings: `b` when `a` is falsy (empty), else `a`. -/
def pyOrStr (a b : String) : String :=
  if a = "" then b else a

/-- Python `elem.get_attribute(n) or ""`: `None` and `""` both give `""`. -/
def attrOr (o : Option String) : String :=
  o.getD ""

/-- Whitespace characters stripped by Python `str.strip` (ASCII subset). -/
def pyIsWs (c : Char) : Bool :=
  c = ' ' ∨ c = '\n' ∨ c = '\t' ∨ c = '\r' ∨ c = Char.ofNat 11 ∨ c = Char.ofNat 12

/-- Models Python `str.strip()`: drop leading and trailing whitespace. -/
def pyStrip (s : String) : String :=
  String.mk (((s.data.dropWhile pyIsWs).reverse.dropWhile pyIsWs).reverse)

/-- Models Python `str.lower()` (ASCII case mapping). -/
def pyLower (s : String) : String :=
  String.mk (s.data.map Char.toLower)

/-- Models Python `s.replace(" ", "_")`: the single-character replacement the
source applies to form names. -/
def pyUnderscore (s : String) : String :=
  String.mk (s.data.map (fun c => if c = ' ' then '_' else c))

/-- `form_name.lower().replace(" ", "_")` as used for form ids and generated
procedure names in `form_analyzer.py`. -/
def pyFormName (s : String) : String :=
  pyUnderscore (pyLower s)

/-! ## Data model (`FormField`, `Form`, the result dictionary) -/

/-- The `FormField` dataclass of `form_analyzer.py` (lines 39-60). -/
structure FormField where
  name : String
  field_id : String
  field_type : String
  label : String
  required : Bool := false
  options : List String := []
  placeholder : String := ""
deriving DecidableEq

/-- The `Form` dataclass of `form_analyzer.py` (lines 62-77). -/
structure Form where
  name : String
  form_id : String
  fields : List FormField := []
  submit_button : Option String := none
deriving DecidableEq

/-- The result dictionary built by `FormAnalyzer.analyze_page` (lines
396-402): keys `success`, `url`, `forms`, `screenshots`, `error`. -/
structure AnalysisResult where
  success : Bool
  url : String
  forms : List Form
  screenshots : List String
  error : Option String
deriving DecidableEq

/-! ## DOM model

Each record holds exactly the data the Python code reads off the
corresponding Selenium `WebElement` via `get_attribute`, `.text`,
`find_element` and `find_elements`. -/

/-- An `<input>` element as seen by `_process_input_field`: the attributes it
reads, plus what the parent-element probe (`find_element("./..")`) and the
span lookup inside it observe for checkbox/radio labels. -/
structure InputElem where
  type_attr : Option String
  id_attr : Option String
  name_attr : Option String
  placeholder_attr : Option String
  required_attr : Option String
  value_attr : Option String
  parentTag : String
  parentSpanTexts : List String
  parentText : String
deriving DecidableEq

/-- A `<textarea>` element as read at lines 244-248. -/
structure TextareaElem where
  id_attr : Option String
  name_attr : Option String
  placeholder_attr : Option String
  required_attr : Option String
deriving DecidableEq

/-- A `<select>` element as read at lines 264-278; `optionTexts` are the
`.text` values of its `<option>` descendants in document order. -/
structure SelectElem where
  id_attr : Option String
  name_attr : Option String
  required_attr : Option String
  optionTexts : List String
deriving DecidableEq

/-- A `<label>` element inside a form container: its `for` attribute and its
text. -/
structure LabelElem where
  for_attr : String
  text : String
deriving DecidableEq

/-- A form container (`div.bg-white p-6 rounded shadow-md`): the element
lists the extractor enumerates inside it, each in document order, plus the
texts of its `button[type=submit]` descendants. -/
structure FormContainer where
  inputs : List InputElem
  textareas : List TextareaElem
  selects : List SelectElem
  labels : List LabelElem
  submitButtonTexts : List String
deriving DecidableEq

/-- A page as probed by `identify_forms`: whether an `h1` is present (the
`WebDriverWait` succeeds), the texts of the buttons matched by the
structural class selector, and for each button index the form container
revealed by clicking it (`none` models `find_element` raising
`NoSuchElementException`). -/
structure Page where
  hasH1 : Bool
  buttons : List String
  container : Nat → Option FormContainer

/-! ## `_find_label_text` (lines 362-385) -/

/-- The first argument of `_find_label_text`: either a `WebElement` (the form
container) or — as happens at the plain-input call site, line 313 — a plain
string, for which the `isinstance(..., WebElement)` test fails. -/
inductive LabelParent where
  | str (s : String)
  | elem (c : FormContainer)

/-- `FormAnalyzer._find_label_text`: empty id gives `""`; a string parent
fails the `isinstance` test and gives `""`; otherwise the first label whose
`for` attribute equals the field id provides its stripped text. -/
def find_label_text (parent : LabelParent) (field_id : String) : String :=
  if field_id = "" then ""
  else
    match parent with
    | .str _ => ""
    | .elem c =>
      match c.labels.filter (fun l => l.for_attr == field_id) with
      | [] => ""
      | l :: _ => pyStrip l.text

/-! ## `_process_input_field` (lines 294-360) -/

/-- The effective `type` of an input: `get_attribute("type") or "text"`. -/
def effType (i : InputElem) : String :=
  pyOrStr (attrOr i.type_attr) "text"

/-- The effective `name` of an input: `get_attribute("name") or ""`. -/
def effName (i : InputElem) : String :=
  attrOr i.name_attr

/-- The checkbox/radio label text (lines 320-332): when the parent element is
a `label`, the first descendant `span` text, else the parent text; when the
parent is not a label, the previously computed `label_text` (which the
plain-input lookup always leaves empty) is kept. -/
def cbLabelText (i : InputElem) (label_text : String) : String :=
  if i.parentTag = "label" then
    match i.parentSpanTexts with
    | s :: _ => s
    | [] => i.parentText
  else label_text

/-- The option value recorded for one checkbox/radio input:
`value or label_text` (lines 340 and 354). -/
def cbOptionValue (i : InputElem) (label_text : String) : String :=
  pyOrStr (attrOr i.value_attr) (cbLabelText i label_text)

/-- Mutate the first field matching `name` and `field_type` by appending `v`
to its options — the in-place update of `existing_field` at line 340. -/
def addOptionToFirst (fields : List FormField) (nm ty v : String) :
    List FormField :=
  match fields with
  | [] => []
  | f :: rest =>
    if f.name = nm ∧ f.field_type = ty then
      { f with options := f.options ++ [v] } :: rest
    else
      f :: addOptionToFirst rest nm ty v

/-- `FormAnalyzer._process_input_field`: skip hidden inputs; compute the
(string-parent, hence always empty) label lookup; merge checkbox/radio
inputs sharing a name and type into the first matching field, else append a
new field. -/
def process_input_field (inp : InputElem) (fields : List FormField) :
    List FormField :=
  let field_type := effType inp
  let field_id := attrOr inp.id_attr
  let nm := effName inp
  let placeholder := attrOr inp.placeholder_attr
  let required := inp.required_attr.isSome
  if field_type = "hidden" then fields
  else
    let label0 :=
      find_label_text (.str (match fields with | [] => "" | f :: _ => f.label))
        field_id
    if field_type = "checkbox" ∨ field_type = "radio" then
      let label_text := cbLabelText inp label0
      let v := pyOrStr (attrOr inp.value_attr) label_text
      if fields.any (fun f => f.name == nm && f.field_type == field_type) then
        addOptionToFirst fields nm field_type v
      else
        fields ++ [{ name := nm, field_id := field_id,
                     field_type := field_type, label := label_text,
                     required := required, options := [v],
                     placeholder := placeholder }]
    else
      fields ++ [{ name := nm, field_id := field_id,
                   field_type := field_type, label := label0,
                   required := required, options := [],
                   placeholder := placeholder }]

/-! ## `_extract_form_fields` (lines 226-292) -/

/-- The field built for one `<textarea>` (lines 244-261). -/
def textareaField (c : FormContainer) (t : TextareaElem) : FormField :=
  { name := attrOr t.name_attr,
    field_id := attrOr t.id_attr,
    field_type := "textarea",
    label := find_label_text (.elem c) (attrOr t.id_attr),
    required := t.required_attr.isSome,
    options := [],
    placeholder := attrOr t.placeholder_attr }

/-- The field built for one `<select>` (lines 264-288); empty option texts
are dropped by the `if option_text:` test. -/
def selectField (c : FormContainer) (s : SelectElem) : FormField :=
  { name := attrOr s.name_attr,
    field_id := attrOr s.id_attr,
    field_type := "select",
    label := find_label_text (.elem c) (attrOr s.id_attr),
    required := s.required_attr.isSome,
    options := s.optionTexts.filter (fun t => t ≠ ""),
    placeholder := "" }

/-- `FormAnalyzer._extract_form_fields`: process every input in order, then
append one field per textarea, then one per select. -/
def extract_form_fields (c : FormContainer) : List FormField :=
  (c.inputs.foldl (fun fs i => process_input_field i fs) []
      ++ c.textareas.map (textareaField c))
    ++ c.selects.map (selectField c)

/-! ## `identify_forms` (lines 161-224) -/

/-- The `Form` built for one reveal button and its container (lines
190-217): the stripped button text names the form, the id is its
lowered/underscored version, the fields come from `_extract_form_fields`,
and the submit button is the first `button[type=submit]` text if any. -/
def buildForm (btnText : String) (c : FormContainer) : Form :=
  let form_name := pyStrip btnText
  { name := form_name,
    form_id := pyFormName form_name,
    fields := extract_form_fields c,
    submit_button := c.submitButtonTexts.head? }

/-- The loop body of `identify_forms`, starting at button index `i`: a
missing container (`find_element` raising) aborts the whole `try` block,
which the `except` turns into `none` (the caller then returns `[]`). -/
def buildForms (p : Page) : Nat → List String → Option (List Form)
  | _, [] => some []
  | i, btn :: rest =>
    match p.container i with
    | none => none
    | some c => (buildForms p (i + 1) rest).map (fun fs => buildForm btn c :: fs)

/-- `FormAnalyzer.identify_forms`: a missing `h1` (the `WebDriverWait`
timing out) or any element-lookup failure inside the loop yields `[]`;
otherwise one form per reveal button, in button order. -/
def identify_forms (p : Page) : List Form :=
  if p.hasH1 then (buildForms p 0 p.buttons).getD [] else []

/-! ## `navigate_to` / `analyze_page` (lines 93-136, 387-433)

The browser session is the only stateful resource: `self.driver` is an
`Option Unit` handle.  The environment fixes the outcome of each external
operation (browser start, `go_to`, screenshot) and the page contents. -/

/-- Outcomes of the external operations `analyze_page` performs, plus the
page the driver would observe. -/
structure Env where
  startChromeOk : Bool
  goToOk : Bool
  screenshotOk : Bool
  page : Page

/-- `FormAnalyzer.navigate_to`: when no driver exists the browser is started
first (`initialize_browser`, lines 93-112); a start failure returns `false`
with no driver; a navigation failure returns `false` but keeps the driver.
Result: (new driver handle, returned Bool, whether a browser start was
attempted). -/
def navigate_to (driver : Option Unit) (e : Env) :
    Option Unit × Bool × Bool :=
  match driver with
  | none =>
    if e.startChromeOk then (some (), e.goToOk, true) else (none, false, true)
  | some _ => (some (), e.goToOk, false)

/-- Everything observable about one `analyze_page` call: the returned result
dictionary, the driver handle after the `finally` block, whether
`helium.kill_browser()` ran, and whether a browser start was attempted. -/
structure AnalyzeOutcome where
  result : AnalysisResult
  finalDriver : Option Unit
  browserKilled : Bool
  startAttempted : Bool
deriving DecidableEq

/-- `FormAnalyzer.analyze_page`: navigation failure produces the error
result; otherwise a full-page screenshot is recorded when it succeeds and
`identify_forms` supplies the forms with `success = True`.  The `finally`
block kills the browser when a driver handle exists and clears it. -/
def analyze_page (driver : Option Unit) (url : String) (e : Env) :
    AnalyzeOutcome :=
  let nav := navigate_to driver e
  if nav.2.1 then
    { result :=
        { success := true, url := url, forms := identify_forms e.page,
          screenshots :=
            if e.screenshotOk then ["form_screenshots/full_page.png"] else [],
          error := none },
      finalDriver := none,
      browserKilled := nav.1.isSome,
      startAttempted := nav.2.2 }
  else
    { result :=
        { success := false, url := url, forms := [], screenshots := [],
          error := some "Failed to navigate to the URL" },
      finalDriver := none,
      browserKilled := nav.1.isSome,
      startAttempted := nav.2.2 }

/-! ## `generate_helium_script` (lines 435-508) -/

/-- The generator lines emitted for one field (lines 469-484). -/
def fieldLines (f : FormField) : List String :=
  if f.field_type = "text" ∨ f.field_type = "email" ∨
      f.field_type = "password" ∨ f.field_type = "tel" ∨
      f.field_type = "date" then
    ["    write('example_" ++ f.name ++ "', into='" ++ f.label ++ "')"]
  else if f.field_type = "textarea" then
    ["    write('Sample text for " ++ f.name ++ "', into='" ++ f.label ++ "')"]
  else if f.field_type = "select" then
    if f.options ≠ [] ∧ f.options.length > 1 then
      ["    select('" ++ f.options.getD 1 "" ++ "', from_='" ++ f.label ++ "')"]
    else []
  else if f.field_type = "checkbox" then
    ["    click('" ++ f.label ++ "')"]
  else if f.field_type = "radio" then
    match f.options with
    | [] => []
    | o :: _ => ["    click('" ++ o ++ "')"]
  else []

/-- The fill-procedure emitted for one form (lines 459-494). -/
def procBlock (fm : Form) : List String :=
  ["def fill_" ++ pyFormName fm.name ++ "_form():",
   "    # Click the " ++ fm.name ++ " button to show the form",
   "    click('" ++ fm.name ++ "')",
   "    sleep(1)  # Wait for form to appear",
   "",
   "    # Fill form fields"]
  ++ (fm.fields.map fieldLines).flatten
  ++ (match fm.submit_button with
      | some b =>
        ["", "    # Submit the form", "    click('" ++ b ++ "')",
         "    sleep(1)  # Wait for submission",
         "    # Handle any confirmation dialogs here if needed"]
      | none => [])
  ++ [""]

/-- The driver-section lines emitted for one form (lines 499-503). -/
def mainBlock (fm : Form) : List String :=
  ["    fill_" ++ pyFormName fm.name ++ "_form()",
   "    # You can add verification code here to check if form submission was successful",
   ""]

/-- All lines of the generated script, in order (lines 447-506). -/
def scriptLines (r : AnalysisResult) : List String :=
  ["# Auto-generated Helium script for form interaction",
   "from helium import *",
   "from time import sleep",
   "",
   "# Navigate to the target page",
   "go_to('" ++ r.url ++ "')",
   "sleep(2)  # Wait for page to load",
   ""]
  ++ (r.forms.map procBlock).flatten
  ++ ["# Main execution",
      "if __name__ == '__main__':"]
  ++ (r.forms.map mainBlock).flatten
  ++ ["    # Close the browser when done",
      "    kill_browser()"]

/-- `FormAnalyzer.generate_helium_script`: the guard at line 444 rejects a
failed or form-less result, otherwise the lines are joined with newlines. -/
def generate_helium_script (r : AnalysisResult) : String :=
  if r.success = false ∨ r.forms = [] then
    "# No valid forms found to generate script for"
  else
    String.intercalate "\n" (scriptLines r)

/-- Character-list prefix test used to locate generated lines. -/
def listPref : List Char → List Char → Bool
  | [], _ => true
  | _ :: _, [] => false
  | c :: p, d :: s => c == d && listPref p s

/-- Boolean string-prefix test used to locate generated lines. -/
def strHasPref (p s : String) : Bool :=
  listPref p.data s.data

/-! ## Sample inputs used by witnesses and counterexamples -/

/-- A text input with id `email`, as on the spec's end-to-end login page. -/
def emailInput : InputElem :=
  { type_attr := some "text", id_attr := some "email",
    name_attr := some "email", placeholder_attr := none,
    required_attr := some "true", value_attr := none,
    parentTag := "div", parentSpanTexts := [], parentText := "" }

/-- A login form container: one text input with id `email`, a `<label
for="email">Email</label>`, and a `Log In` submit button. -/
def loginContainer : FormContainer :=
  { inputs := [emailInput], textareas := [], selects := [],
    labels := [{ for_attr := "email", text := "Email" }],
    submitButtonTexts := ["Log In"] }

/-- A page with a single `Login` reveal button whose container is always
found. -/
def samplePage : Page :=
  { hasH1 := true, buttons := ["Login"],
    container := fun _ => some loginContainer }

/-- The form the extractor produces for `samplePage`. -/
def sampleForm : Form := buildForm "Login" loginContainer

/-- A successful analysis result over `samplePage`. -/
def sampleResult : AnalysisResult :=
  { success := true, url := "http://localhost:5174", forms := [sampleForm],
    screenshots := [], error := none }

/-- An environment in which browser start and navigation succeed but the
form-container lookup raises `NoSuchElementException` (an element-not-found
failure during extraction). -/
def extractionFailEnv : Env :=
  { startChromeOk := true, goToOk := true, screenshotOk := true,
    page := { hasH1 := true, buttons := ["Login"],
              container := fun _ => none } }

/-- An environment in which `helium.go_to` raises (navigation failure). -/
def navFailEnv : Env :=
  { startChromeOk := true, goToOk := false, screenshotOk := true,
    page := { hasH1 := false, buttons := [], container := fun _ => none } }

/-! ## C2 — checkbox/radio groups merge into one field -/

/-- An input belongs to the `(kind, name)` group: its effective type is the
given checkbox/radio kind and its effective name matches. -/
def inGroupB (k nm : String) (i : InputElem) : Bool :=
  effType i == k && effName i == nm

/-- A field matches the `(kind, name)` group — the merge test at line 336. -/
def fieldMatchB (k nm : String) (f : FormField) : Bool :=
  f.name == nm && f.field_type == k

/-- The field created for the first group member (lines 343-354). -/
def mkGroupField (k nm : String) (i : InputElem) : FormField :=
  { name := nm, field_id := attrOr i.id_attr, field_type := k,
    label := cbLabelText i "", required := i.required_attr.isSome,
    options := [cbOptionValue i ""], placeholder := attrOr i.placeholder_attr }

/-- Effect of one group member on the filtered group fields: create the
field, or append the member's option value to the existing one. -/
def stepApply (k nm : String) : List FormField → InputElem → List FormField
  | [], i => [mkGroupField k nm i]
  | f :: t, i => { f with options := f.options ++ [cbOptionValue i ""] } :: t

/-- Accumulated effect of a run of group members. -/
def applyGroup (k nm : String) :
    List FormField → List InputElem → List FormField
  | cur, [] => cur
  | cur, i :: g => applyGroup k nm (stepApply k nm cur i) g

/-- Append an option value to the head field, if any. -/
def optAppendHead : List FormField → String → List FormField
  | [], _ => []
  | f :: t, v => { f with options := f.options ++ [v] } :: t

/-- A checkbox input named `pets` carrying value `v`, wrapped in a label
with a span. -/
def checkboxInput (v : String) : InputElem :=
  { type_attr := some "checkbox", id_attr := some v,
    name_attr := some "pets", placeholder_attr := none,
    required_attr := none, value_attr := some v,
    parentTag := "label", parentSpanTexts := [v], parentText := v }

/-- A container with two checkboxes sharing the name `pets`. -/
def petsContainer : FormContainer :=
  { inputs := [checkboxInput "dog", checkboxInput "cat"],
    textareas := [], selects := [], labels := [], submitButtonTexts := [] }

/-! ## C4 — script structure: one procedure per form, driver, teardown -/

/-- The procedure-definition line emitted for a form. -/
def defLineOf (fm : Form) : String :=
  "def fill_" ++ pyFormName fm.name ++ "_form():"

/-- The driver-section call line emitted for a form. -/
def callLineOf (fm : Form) : String :=
  "    fill_" ++ pyFormName fm.name ++ "_form()"

/-! ## C6 — JSON serialization round-trip

`FormAnalyzer.to_json` is `json.dumps(analysis_result, indent=indent)`; the
claim parses the string back (`json.loads`).  The result dictionary holds
only nulls, booleans, strings, arrays and objects (no numbers), so the JSON
model covers exactly those.  Python strings are modelled as Lean strings
(sequences of Unicode scalar values); `dumps` follows `json.dumps` with its
default `ensure_ascii=True` escaping (including surrogate pairs), `loads` is
a recursive-descent reader of the same grammar. -/

/-- The opening brace character, `\x7b`. -/
def lbrace : Char := Char.ofNat 123

/-- The closing brace character, `\x7d`. -/
def rbrace : Char := Char.ofNat 125

mutual
/-- A JSON value of the shapes `to_json` serializes. -/
inductive JVal where
  | null : JVal
  | bool (b : Bool) : JVal
  | str (s : String) : JVal
  | arr (xs : JArr) : JVal
  | obj (kvs : JObj) : JVal
/-- A JSON array. -/
inductive JArr where
  | nil : JArr
  | cons (v : JVal) (vs : JArr) : JArr
/-- A JSON object: ordered key/value members. -/
inductive JObj where
  | nil : JObj
  | cons (k : String) (v : JVal) (kvs : JObj) : JObj
end

/-- `n` spaces. -/
def spacesChars (n : Nat) : List Char := List.replicate n ' '

/-- Lowercase hex digit of `n % 16`-style values (`n < 16` in use). -/
def hexDigitChar (n : Nat) : Char :=
  if n < 10 then Char.ofNat (48 + n) else Char.ofNat (87 + n)

/-- Four lowercase hex digits of `n` (for `n < 0x10000`). -/
def hex4 (n : Nat) : List Char :=
  [hexDigitChar (n / 4096 % 16), hexDigitChar (n / 256 % 16),
   hexDigitChar (n / 16 % 16), hexDigitChar (n % 16)]

/-- `json.dumps` escaping of one character (`ensure_ascii=True`): the short
escapes, printable ASCII verbatim, `\uXXXX` for the rest, surrogate pairs
above the BMP. -/
def escChar (c : Char) : List Char :=
  if c = '"' then ['\\', '"']
  else if c = '\\' then ['\\', '\\']
  else if c = Char.ofNat 8 then ['\\', 'b']
  else if c = Char.ofNat 12 then ['\\', 'f']
  else if c = '\n' then ['\\', 'n']
  else if c = '\r' then ['\\', 'r']
  else if c = '\t' then ['\\', 't']
  else if 0x20 ≤ c.toNat ∧ c.toNat ≤ 0x7E then [c]
  else if c.toNat < 0x10000 then '\\' :: 'u' :: hex4 c.toNat
  else
    '\\' :: 'u' :: hex4 (0xD800 + (c.toNat - 0x10000) / 1024) ++
      ('\\' :: 'u' :: hex4 (0xDC00 + (c.toNat - 0x10000) % 1024))

/-- Escape every character. -/
def escapeChars : List Char → List Char
  | [] => []
  | c :: cs => escChar c ++ escapeChars cs

/-- A JSON string literal: quotes around the escaped content. -/
def printStr (s : String) : List Char :=
  '"' :: escapeChars s.data ++ ['"']

mutual
/-- `json.dumps(..., indent=step)` of a value at indentation `ind`. -/
def printVal (step ind : Nat) : JVal → List Char
  | .null => "null".data
  | .bool true => "true".data
  | .bool false => "false".data
  | .str s => printStr s
  | .arr .nil => "[]".data
  | .arr (.cons v vs) =>
    '[' :: '\n' :: printItems step (ind + step) (.cons v vs) ++
      ('\n' :: spacesChars ind ++ [']'])
  | .obj .nil => lbrace :: [rbrace]
  | .obj (.cons k v kvs) =>
    lbrace :: '\n' :: printMembers step (ind + step) (.cons k v kvs) ++
      ('\n' :: spacesChars ind ++ [rbrace])
/-- Array items, comma/newline separated, each indented. -/
def printItems (step ind : Nat) : JArr → List Char
  | .nil => []
  | .cons v vs =>
    spacesChars ind ++ printVal step ind v ++
      (match vs with
       | .nil => []
       | .cons _ _ => ',' :: '\n' :: printItems step ind vs)
/-- Object members, `"key": value`, comma/newline separated. -/
def printMembers (step ind : Nat) : JObj → List Char
  | .nil => []
  | .cons k v kvs =>
    spacesChars ind ++ printStr k ++ (':' :: ' ' :: printVal step ind v) ++
      (match kvs with
       | .nil => []
       | .cons _ _ _ => ',' :: '\n' :: printMembers step ind kvs)
end

/-- `json.dumps(v, indent=step)` as a string. -/
def dumps (step : Nat) (v : JVal) : String :=
  String.mk (printVal step 0 v)

/-- JSON whitespace skipped by the reader. -/
def isWsChar (c : Char) : Bool :=
  c = ' ' ∨ c = '\t' ∨ c = '\n' ∨ c = '\r'

/-- Drop leading JSON whitespace. -/
def skipWs : List Char → List Char
  | [] => []
  | c :: s => if isWsChar c then skipWs s else c :: s

/-- Hex digit value, upper or lower case. -/
def hexVal (c : Char) : Option Nat :=
  if '0' ≤ c ∧ c ≤ '9' then some (c.toNat - 48)
  else if 'a' ≤ c ∧ c ≤ 'f' then some (c.toNat - 87)
  else if 'A' ≤ c ∧ c ≤ 'F' then some (c.toNat - 55)
  else none

/-- Read four hex digits. -/
def readU : List Char → Option (Nat × List Char)
  | a :: b :: c :: d :: r =>
    match hexVal a, hexVal b, hexVal c, hexVal d with
    | some x, some y, some z, some w =>
      some (4096 * x + 256 * y + 16 * z + w, r)
    | _, _, _, _ => none
  | _ => none

/-- Read a `\uXXXX` low surrogate, as the CPython scanner does after a high
surrogate. -/
def readLowSurrogate : List Char → Option (Nat × List Char)
  | b1 :: b2 :: r =>
    if b1 = '\\' ∧ b2 = 'u' then
      match readU r with
      | some (m, r2) =>
        if 0xDC00 ≤ m ∧ m < 0xE000 then some (m, r2) else none
      | none => none
    else none
  | _ => none

/-- The two-character escapes `json.loads` accepts. -/
def escMap (k : Char) : Option Char :=
  if k = '"' then some '"'
  else if k = '\\' then some '\\'
  else if k = '/' then some '/'
  else if k = 'b' then some (Char.ofNat 8)
  else if k = 'f' then some (Char.ofNat 12)
  else if k = 'n' then some '\n'
  else if k = 'r' then some '\r'
  else if k = 't' then some '\t'
  else none

/-- String-body reader (after the opening quote), fuelled by input length.
A `\uXXXX` high surrogate followed by a low surrogate combines into one
scalar value, as in CPython's scanner; a lone surrogate escape (which Python
would keep and a Lean `Char` cannot hold, and which `dumps` never emits for
scalar-value strings) falls back to `Char.ofNat`. -/
def strBodyGo : Nat → List Char → Option (List Char × List Char)
  | 0, _ => none
  | _ + 1, [] => none
  | f + 1, c :: r =>
    if c = '"' then some ([], r)
    else if c = '\\' then
      match r with
      | [] => none
      | k :: r1 =>
        if k = 'u' then
          match readU r1 with
          | none => none
          | some (n, r2) =>
            if 0xD800 ≤ n ∧ n < 0xDC00 then
              match readLowSurrogate r2 with
              | some (m, r3) =>
                (strBodyGo f r3).map (fun p =>
                  (Char.ofNat
                      (0x10000 + (n - 0xD800) * 1024 + (m - 0xDC00)) :: p.1,
                    p.2))
              | none =>
                (strBodyGo f r2).map (fun p => (Char.ofNat n :: p.1, p.2))
            else (strBodyGo f r2).map (fun p => (Char.ofNat n :: p.1, p.2))
        else
          match escMap k with
          | some e => (strBodyGo f r1).map (fun p => (e :: p.1, p.2))
          | none => none
    else (strBodyGo f r).map (fun p => (c :: p.1, p.2))

/-- Read a JSON string body; the fuel of one unit per produced character is
covered by the input length. -/
def parseStrBody (s : List Char) : Option (List Char × List Char) :=
  strBodyGo (s.length + 1) s

mutual
/-- Fuelled recursive-descent reader of a JSON value. -/
def parseVal : Nat → List Char → Option (JVal × List Char)
  | 0, _ => none
  | f + 1, s =>
    match skipWs s with
    | [] => none
    | c :: r =>
      if c = 'n' then
        if r.take 3 = ['u', 'l', 'l'] then some (.null, r.drop 3) else none
      else if c = 't' then
        if r.take 3 = ['r', 'u', 'e'] then some (.bool true, r.drop 3)
        else none
      else if c = 'f' then
        if r.take 4 = ['a', 'l', 's', 'e'] then some (.bool false, r.drop 4)
        else none
      else if c = '"' then
        match parseStrBody r with
        | some (cs, r2) => some (.str (String.mk cs), r2)
        | none => none
      else if c = '[' then
        match skipWs r with
        | [] => none
        | d :: r2 =>
          if d = ']' then some (.arr .nil, r2)
          else
            match parseItems f r with
            | some (xs, r3) => some (.arr xs, r3)
            | none => none
      else if c = lbrace then
        match skipWs r with
        | [] => none
        | d :: r2 =>
          if d = rbrace then some (.obj .nil, r2)
          else
            match parseMembers f r with
            | some (kvs, r3) => some (.obj kvs, r3)
            | none => none
      else none
/-- Read the items of a non-empty array, up to and including `]`. -/
def parseItems : Nat → List Char → Option (JArr × List Char)
  | 0, _ => none
  | f + 1, s =>
    match parseVal f s with
    | none => none
    | some (v, r) =>
      match skipWs r with
      | [] => none
      | d :: r2 =>
        if d = ',' then
          match parseItems f r2 with
          | some (vs, r3) => some (.cons v vs, r3)
          | none => none
        else if d = ']' then some (.cons v .nil, r2)
        else none
/-- Read the members of a non-empty object, up to and including the closing
brace. -/
def parseMembers : Nat → List Char → Option (JObj × List Char)
  | 0, _ => none
  | f + 1, s =>
    match skipWs s with
    | [] => none
    | c :: r =>
      if c = '"' then
        match parseStrBody r with
        | none => none
        | some (k, r1) =>
          match skipWs r1 with
          | [] => none
          | d :: r2 =>
            if d = ':' then
              match parseVal f r2 with
              | none => none
              | some (v, r3) =>
                match skipWs r3 with
                | [] => none
                | e :: r4 =>
                  if e = ',' then
                    match parseMembers f r4 with
                    | some (kvs, r5) =>
                      some (.cons (String.mk k) v kvs, r5)
                    | none => none
                  else if e = rbrace then
                    some (.cons (String.mk k) v .nil, r4)
                  else none
            else none
      else none
end

/-- `json.loads`: read one value, allow trailing whitespace only. -/
def loads (s : String) : Option JVal :=
  match parseVal (s.length + 1) s.data with
  | some (v, r) => if skipWs r = [] then some v else none
  | none => none

mutual
/-- Fuel measure of a value for the reader. -/
def sizeJ : JVal → Nat
  | .null => 1
  | .bool _ => 1
  | .str _ => 1
  | .arr xs => 1 + sizeArr xs
  | .obj kvs => 1 + sizeObj kvs
/-- Fuel measure of an array. -/
def sizeArr : JArr → Nat
  | .nil => 1
  | .cons v vs => 1 + sizeJ v + sizeArr vs
/-- Fuel measure of an object. -/
def sizeObj : JObj → Nat
  | .nil => 1
  | .cons _ v kvs => 1 + sizeJ v + sizeObj kvs
end

/-- A JSON array of strings. -/
def jarrOfStrings : List String → JArr
  | [] => .nil
  | s :: ss => .cons (.str s) (jarrOfStrings ss)

/-- `FormField.to_dict` (lines 50-60): keys `name`, `id`, `type`, `label`,
`required`, `options`, `placeholder`. -/
def fieldToDict (f : FormField) : JVal :=
  .obj (.cons "name" (.str f.name) (.cons "id" (.str f.field_id)
    (.cons "type" (.str f.field_type) (.cons "label" (.str f.label)
    (.cons "required" (.bool f.required)
    (.cons "options" (.arr (jarrOfStrings f.options))
    (.cons "placeholder" (.str f.placeholder) .nil)))))))

/-- The fields of a form as a JSON array. -/
def jarrOfFields : List FormField → JArr
  | [] => .nil
  | f :: fs => .cons (fieldToDict f) (jarrOfFields fs)

/-- `Form.to_dict` (lines 70-77): keys `name`, `id`, `fields`,
`submit_button`. -/
def formToDict (fm : Form) : JVal :=
  .obj (.cons "name" (.str fm.name) (.cons "id" (.str fm.form_id)
    (.cons "fields" (.arr (jarrOfFields fm.fields))
    (.cons "submit_button"
      (match fm.submit_button with | none => .null | some b => .str b)
      .nil))))

/-- The forms list as a JSON array of form dictionaries (line 419). -/
def jarrOfForms : List Form → JArr
  | [] => .nil
  | fm :: fms => .cons (formToDict fm) (jarrOfForms fms)

/-- The result dictionary of `analyze_page` as a JSON value: keys `success`,
`url`, `forms`, `screenshots`, `error`. -/
def resultToDict (r : AnalysisResult) : JVal :=
  .obj (.cons "success" (.bool r.success) (.cons "url" (.str r.url)
    (.cons "forms" (.arr (jarrOfForms r.forms))
    (.cons "screenshots" (.arr (jarrOfStrings r.screenshots))
    (.cons "error"
      (match r.error with | none => .null | some e => .str e)
      .nil)))))

/-- `FormAnalyzer.to_json`: `json.dumps(analysis_result, indent=indent)`. -/
def to_json (r : AnalysisResult) (indent : Nat) : String :=
  dumps indent (resultToDict r)

/-- First member of a parsed object with the given key. -/
def jlookup (k : String) : JObj → Option JVal
  | .nil => none
  | .cons k2 v kvs => if k2 = k then some v else jlookup k kvs

/-- A parsed array read back as a list of strings. -/
def strListOfJArr : JArr → Option (List String)
  | .nil => some []
  | .cons (.str s) vs => (strListOfJArr vs).map (fun l => s :: l)
  | .cons _ _ => none

/-- Kind and option list of a parsed field dictionary. -/
def fieldInfoOfJVal : JVal → Option (String × List String)
  | .obj kvs =>
    match jlookup "type" kvs, jlookup "options" kvs with
    | some (.str t), some (.arr os) =>
      (strListOfJArr os).map (fun l => (t, l))
    | _, _ => none
  | _ => none

/-- Field infos of a parsed field array. -/
def fieldInfosOfJArr : JArr → Option (List (String × List String))
  | .nil => some []
  | .cons v vs =>
    match fieldInfoOfJVal v, fieldInfosOfJArr vs with
    | some i, some l => some (i :: l)
    | _, _ => none

/-- Field count plus per-field info of a parsed form dictionary. -/
def formInfoOfJVal : JVal → Option (Nat × List (String × List String)) :=
  fun v =>
    match v with
    | .obj kvs =>
      match jlookup "fields" kvs with
      | some (.arr fs) => (fieldInfosOfJArr fs).map (fun l => (l.length, l))
      | _ => none
    | _ => none

/-- Form infos of a parsed forms array. -/
def formInfosOfJArr : JArr → Option (List (Nat × List (String × List String)))
  | .nil => some []
  | .cons v vs =>
    match formInfoOfJVal v, formInfosOfJArr vs with
    | some i, some l => some (i :: l)
    | _, _ => none

/-- Per-form field count, field kinds and option lists of a parsed result. -/
def resultInfoOfJVal (v : JVal) :
    Option (List (Nat × List (String × List String))) :=
  match v with
  | .obj kvs =>
    match jlookup "forms" kvs with
    | some (.arr fs) => formInfosOfJArr fs
    | _ => none
  | _ => none

/-- Kind and option list of a `FormField`. -/
def fieldInfo (f : FormField) : String × List String :=
  (f.field_type, f.options)

/-- Field count plus per-field info of a `Form`. -/
def formInfo (fm : Form) : Nat × List (String × List String) :=
  (fm.fields.length, fm.fields.map fieldInfo)

/-- Per-form field count, field kinds and option lists of an
`AnalysisResult`. -/
def resultInfo (r : AnalysisResult) :
    List (Nat × List (String × List String)) :=
  r.forms.map formInfo

/-! ## C3 — label lookup for plain inputs -/

/-- C3: on a container holding `<label for="email">Email</label>` and a text
input with id `email`, a container-scoped lookup (the spec's documented
behaviour, which the textarea and select paths use) finds `Email`, but the
extractor records `""` for the plain input, because line 313 passes the
previous field's label string — not the form container — to
`_find_label_text`, whose `isinstance` test then fails. -/
theorem plain_input_label_lookup_bug :
    find_label_text (.elem loginContainer) "email" = "Email" ∧
    (extract_form_fields loginContainer).map (fun f => f.label) = [""] := by
  constructor <;> rfl

/-! ## C5 — select lines in the generated script -/

/-- C5: a select field produces a `select(...)` line exactly when it has at
least two options, and that line selects the option at index 1; with fewer
than two options no line is produced. -/
theorem select_line_iff_two_options (f : FormField)
    (h : f.field_type = "select") :
    (2 ≤ f.options.length →
      fieldLines f =
        ["    select('" ++ f.options.getD 1 "" ++ "', from_='" ++
          f.label ++ "')"]) ∧
    (f.options.length < 2 → fieldLines f = []) := by
  constructor <;> intro hl
  · have h1 : f.options ≠ [] := by
      intro e
      rw [e] at hl
      simp at hl
    have h2 : f.options.length > 1 := hl
    simp [fieldLines, h, h1, h2]
  · have h1 : ¬(f.options ≠ [] ∧ f.options.length > 1) := by
      rintro ⟨-, h2⟩
      omega
    simp only [fieldLines, h]
    rw [if_neg (by simp), if_neg (by simp), if_pos trivial, if_neg h1]

/-- Witness for C5 at a concrete three-option select field and a concrete
one-option select field. -/
theorem select_line_iff_two_options_witness :
    (FormField.mk "country" "country" "select" "Country" false
        ["Pick one", "US", "FR"] "").field_type = "select" ∧
    fieldLines (FormField.mk "country" "country" "select" "Country" false
        ["Pick one", "US", "FR"] "") =
      ["    select('US', from_='Country')"] ∧
    fieldLines (FormField.mk "country" "country" "select" "Country" false
        ["Pick one"] "") = [] :=
  ⟨rfl,
   by
     have h := (select_line_iff_two_options
       (FormField.mk "country" "country" "select" "Country" false
         ["Pick one", "US", "FR"] "") rfl).1 (by decide)
     simpa using h,
   (select_line_iff_two_options
       (FormField.mk "country" "country" "select" "Country" false
         ["Pick one"] "") rfl).2 (by decide)⟩

/-! ## C7 — error handling of `analyze_page` -/

/-- C7 counterexample: with navigation succeeding but the form-container
lookup failing (an element-not-found failure during extraction),
`analyze_page` returns `success = true` and no error message — the claim
says every failure mode yields `success = False` plus an error message. -/
theorem analyze_page_extraction_failure_reports_success :
    (analyze_page none "http://localhost:5174" extractionFailEnv).result.success
        = true ∧
    (analyze_page none "http://localhost:5174" extractionFailEnv).result.error
        = none ∧
    (analyze_page none "http://localhost:5174" extractionFailEnv).result.forms
        = [] :=
  ⟨rfl, rfl, rfl⟩

/-- C7 amended: `analyze_page` always returns a result (it is a total
function of its environment); browser-start and navigation failures are
converted into `success = false` with the fixed error message, while
element-lookup failures during extraction are swallowed inside
`identify_forms`, so the result then still reports `success = true` with no
error. -/
theorem analyze_page_error_reporting (driver : Option Unit) (url : String)
    (e : Env) :
    ((navigate_to driver e).2.1 = false →
      (analyze_page driver url e).result.success = false ∧
      (analyze_page driver url e).result.error =
        some "Failed to navigate to the URL") ∧
    ((navigate_to driver e).2.1 = true →
      (analyze_page driver url e).result.success = true ∧
      (analyze_page driver url e).result.error = none) := by
  constructor <;> intro h <;> simp [analyze_page, h]

/-- Witness for C7's amended statement at a concrete navigation failure. -/
theorem analyze_page_error_reporting_witness :
    (navigate_to none navFailEnv).2.1 = false ∧
    (analyze_page none "http://x" navFailEnv).result.success = false ∧
    (analyze_page none "http://x" navFailEnv).result.error =
      some "Failed to navigate to the URL" :=
  ⟨rfl,
   ((analyze_page_error_reporting none "http://x" navFailEnv).1 rfl).1,
   ((analyze_page_error_reporting none "http://x" navFailEnv).1 rfl).2⟩

/-! ## C8 — browser session lifecycle -/

/-- C8: after `analyze_page` the driver handle is always cleared; a browser
start is attempted exactly when no driver existed (lazy acquisition); and
`kill_browser` runs exactly when a driver handle existed at cleanup (it was
passed in, or the lazy start succeeded) — regardless of success or
failure. -/
theorem analyze_page_browser_lifecycle (driver : Option Unit) (url : String)
    (e : Env) :
    (analyze_page driver url e).finalDriver = none ∧
    (analyze_page driver url e).startAttempted = driver.isNone ∧
    (analyze_page driver url e).browserKilled =
      (driver.isSome || e.startChromeOk) := by
  cases driver with
  | none =>
    cases hs : e.startChromeOk <;> cases hg : e.goToOk <;>
      simp [analyze_page, navigate_to, hs, hg]
  | some u =>
    cases hg : e.goToOk <;> simp [analyze_page, navigate_to, hg]

/-! ## C9 — determinism of the script generator -/

/-- C9: `generate_helium_script` is a pure function of the analysis result:
equal inputs give character-for-character identical script text. -/
theorem generate_helium_script_deterministic (r1 r2 : AnalysisResult)
    (h : r1 = r2) : generate_helium_script r1 = generate_helium_script r2 :=
  congrArg generate_helium_script h

/-- Witness for C9: two invocations on the same concrete result agree. -/
theorem generate_helium_script_deterministic_witness :
    sampleResult = sampleResult ∧
    generate_helium_script sampleResult = generate_helium_script sampleResult :=
  ⟨rfl, generate_helium_script_deterministic sampleResult sampleResult rfl⟩

/-! ## C1 — one Form per reveal button -/

/-- When every container lookup from index `k` on succeeds, the
`identify_forms` loop builds exactly one form per remaining button, in
button order. -/
theorem buildForms_total (p : Page) :
    ∀ (btns : List String) (k : Nat),
      (∀ j, j < btns.length → (p.container (k + j)).isSome) →
      ∃ fs, buildForms p k btns = some fs ∧ fs.length = btns.length ∧
        ∀ j, j < btns.length →
          ∃ b c, btns[j]? = some b ∧ p.container (k + j) = some c ∧
            fs[j]? = some (buildForm b c) := by
  intro btns
  induction btns with
  | nil =>
    intro k h
    exact ⟨[], rfl, rfl, fun j hj => absurd hj (by simp)⟩
  | cons b rest ih =>
    intro k h
    have h0 : (p.container (k + 0)).isSome := h 0 (by simp)
    rw [Nat.add_zero] at h0
    cases hc : p.container k with
    | none => rw [hc] at h0; simp at h0
    | some c =>
      obtain ⟨fs, hfs, hlen, hidx⟩ := ih (k + 1) (fun j hj => by
        have hh := h (j + 1) (by simpa using Nat.succ_lt_succ hj)
        have he : k + (j + 1) = k + 1 + j := by omega
        rw [he] at hh
        exact hh)
      refine ⟨buildForm b c :: fs, ?_, by simpa using hlen, ?_⟩
      · simp [buildForms, hc, hfs]
      · intro j hj
        cases j with
        | zero =>
          exact ⟨b, c, by simp, by simpa using hc, by simp⟩
        | succ j =>
          obtain ⟨b2, c2, hb2, hc2, hf2⟩ := hidx j (by simpa using hj)
          refine ⟨b2, c2, by simpa using hb2, ?_, by simpa using hf2⟩
          have he : k + (j + 1) = k + 1 + j := by omega
          rw [he]
          exact hc2

/-- C1: on a page whose `h1` wait and every per-button container lookup
succeed, `identify_forms` returns exactly one `Form` per reveal button,
in the order the buttons appear, each built from that button's text and
its revealed container. -/
theorem identify_forms_one_form_per_button (p : Page)
    (h1 : p.hasH1 = true)
    (h2 : ∀ i, i < p.buttons.length → (p.container i).isSome) :
    (identify_forms p).length = p.buttons.length ∧
    ∀ i, i < p.buttons.length →
      ∃ b c, p.buttons[i]? = some b ∧ p.container i = some c ∧
        (identify_forms p)[i]? = some (buildForm b c) := by
  obtain ⟨fs, hfs, hlen, hidx⟩ := buildForms_total p p.buttons 0
    (fun j hj => by simpa using h2 j hj)
  have hid : identify_forms p = fs := by simp [identify_forms, h1, hfs]
  rw [hid]
  exact ⟨hlen, fun i hi => by simpa using hidx i hi⟩

/-- Witness for C1 on the one-button `samplePage`. -/
theorem identify_forms_one_form_per_button_witness :
    samplePage.hasH1 = true ∧
    (identify_forms samplePage).length = samplePage.buttons.length :=
  ⟨rfl,
   (identify_forms_one_form_per_button samplePage rfl (fun _ _ => rfl)).1⟩

/-! ## C10 — hidden inputs are never extracted -/

/-- Appending an option to the first matching field changes no field
types. -/
theorem addOptionToFirst_map_type (nm ty v : String) :
    ∀ fs : List FormField,
      (addOptionToFirst fs nm ty v).map (fun f => f.field_type) =
        fs.map (fun f => f.field_type) := by
  intro fs
  induction fs with
  | nil => rfl
  | cons f rest ih =>
    by_cases hf : f.name = nm ∧ f.field_type = ty
    · simp [addOptionToFirst, hf]
    · simp [addOptionToFirst, hf, ih]

/-- `_process_input_field` never introduces a field of type `hidden`. -/
theorem process_input_field_no_hidden (i : InputElem) (fs : List FormField)
    (h : ∀ f ∈ fs, f.field_type ≠ "hidden") :
    ∀ f ∈ process_input_field i fs, f.field_type ≠ "hidden" := by
  intro f hf
  simp only [process_input_field] at hf
  by_cases h1 : effType i = "hidden"
  · rw [if_pos h1] at hf
    exact h f hf
  · rw [if_neg h1] at hf
    by_cases h2 : effType i = "checkbox" ∨ effType i = "radio"
    · rw [if_pos h2] at hf
      by_cases h3 : (fs.any fun g => g.name == effName i && g.field_type == effType i) = true
      · rw [if_pos h3] at hf
        have hm : f.field_type ∈
            (addOptionToFirst fs (effName i) (effType i)
              (pyOrStr (attrOr i.value_attr)
                (cbLabelText i (find_label_text
                  (.str (match fs with | [] => "" | g :: _ => g.label))
                  (attrOr i.id_attr))))).map (fun g => g.field_type) :=
          List.mem_map_of_mem _ hf
        rw [addOptionToFirst_map_type] at hm
        obtain ⟨g, hg, he⟩ := List.mem_map.1 hm
        rw [← he]
        exact h g hg
      · rw [if_neg h3] at hf
        rcases List.mem_append.1 hf with hl | hr
        · exact h f hl
        · rw [List.mem_singleton.1 hr]
          exact h1
    · rw [if_neg h2] at hf
      rcases List.mem_append.1 hf with hl | hr
      · exact h f hl
      · rw [List.mem_singleton.1 hr]
        exact h1

/-- The input-processing fold never introduces a field of type `hidden`. -/
theorem extract_fold_no_hidden :
    ∀ (inputs : List InputElem) (fs : List FormField),
      (∀ f ∈ fs, f.field_type ≠ "hidden") →
      ∀ f ∈ inputs.foldl (fun acc i => process_input_field i acc) fs,
        f.field_type ≠ "hidden" := by
  intro inputs
  induction inputs with
  | nil =>
    intro fs h f hf
    exact h f (by simpa using hf)
  | cons i rest ih =>
    intro fs h f hf
    rw [List.foldl_cons] at hf
    exact ih (process_input_field i fs)
      (process_input_field_no_hidden i fs h) f hf

/-- `_extract_form_fields` produces no field of type `hidden`. -/
theorem extract_form_fields_no_hidden (c : FormContainer) :
    ∀ f ∈ extract_form_fields c, f.field_type ≠ "hidden" := by
  intro f hf
  rw [extract_form_fields] at hf
  rcases List.mem_append.1 hf with hl | hr
  · rcases List.mem_append.1 hl with h3 | h4
    · exact extract_fold_no_hidden c.inputs [] (by simp) f h3
    · obtain ⟨t, ht, he⟩ := List.mem_map.1 h4
      rw [← he]
      intro hcon
      simp [textareaField] at hcon
  · obtain ⟨s, hs, he⟩ := List.mem_map.1 hr
    rw [← he]
    intro hcon
    simp [selectField] at hcon

/-- Each form returned by `identify_forms` was built by `buildForm` from a
button text and a container. -/
theorem buildForms_mem (p : Page) :
    ∀ (btns : List String) (k : Nat) (fs : List Form),
      buildForms p k btns = some fs →
      ∀ fm ∈ fs, ∃ b c, fm = buildForm b c := by
  intro btns
  induction btns with
  | nil =>
    intro k fs hfs fm hm
    simp only [buildForms, Option.some.injEq] at hfs
    rw [← hfs] at hm
    simp at hm
  | cons b rest ih =>
    intro k fs hfs fm hm
    simp only [buildForms] at hfs
    cases hc : p.container k with
    | none => rw [hc] at hfs; simp at hfs
    | some c =>
      rw [hc] at hfs
      cases hb : buildForms p (k + 1) rest with
      | none => rw [hb] at hfs; simp at hfs
      | some fs2 =>
        rw [hb] at hfs
        have hfs2 : buildForm b c :: fs2 = fs := by simpa using hfs
        rw [← hfs2] at hm
        rcases List.mem_cons.1 hm with hm1 | hm2
        · exact ⟨b, c, hm1⟩
        · exact ih (k + 1) fs2 hb fm hm2

/-- Each form returned by `identify_forms` is a `buildForm` result. -/
theorem identify_forms_mem (p : Page) (fm : Form)
    (h : fm ∈ identify_forms p) : ∃ b c, fm = buildForm b c := by
  rw [identify_forms] at h
  by_cases h1 : p.hasH1 = true
  · rw [if_pos h1] at h
    cases hb : buildForms p 0 p.buttons with
    | none => rw [hb] at h; simp at h
    | some fs =>
      rw [hb] at h
      exact buildForms_mem p p.buttons 0 fs hb fm (by simpa using h)
  · rw [if_neg h1] at h
    simp at h

/-- C10: no form produced by the extractor ever contains a field of kind
`hidden` — inputs whose type attribute is `hidden` are skipped. -/
theorem no_hidden_fields_extracted (p : Page) (fm : Form) (fld : FormField)
    (h1 : fm ∈ identify_forms p) (h2 : fld ∈ fm.fields) :
    fld.field_type ≠ "hidden" := by
  obtain ⟨b, c, rfl⟩ := identify_forms_mem p fm h1
  refine extract_form_fields_no_hidden c fld ?_
  simpa [buildForm] using h2

/-- Witness for C10 on the concrete `samplePage`. -/
theorem no_hidden_fields_extracted_witness :
    sampleForm ∈ identify_forms samplePage ∧
    FormField.mk "email" "email" "text" "" true [] "" ∈ sampleForm.fields ∧
    (FormField.mk "email" "email" "text" "" true [] "").field_type ≠
      "hidden" := by
  have hmem : sampleForm ∈ identify_forms samplePage := by
    rw [show identify_forms samplePage = [sampleForm] from rfl]
    exact List.mem_singleton_self _
  have hfld : FormField.mk "email" "email" "text" "" true [] "" ∈
      sampleForm.fields := by
    rw [show sampleForm.fields =
      [FormField.mk "email" "email" "text" "" true [] ""] from rfl]
    exact List.mem_singleton_self _
  exact ⟨hmem, hfld,
    no_hidden_fields_extracted samplePage sampleForm _ hmem hfld⟩

/-- The string-parent variant of `_find_label_text` always yields `""`: the
`isinstance(parent_element, WebElement)` test fails on a string. -/
theorem find_label_text_str (s fid : String) :
    find_label_text (.str s) fid = "" := by
  by_cases h : fid = "" <;> simp [find_label_text, h]

/-- Appending to the first `(nm, k)` match rewrites the head of the filtered
group fields. -/
theorem filter_addOptionToFirst_match (k nm v : String) :
    ∀ fs : List FormField,
      (addOptionToFirst fs nm k v).filter (fieldMatchB k nm) =
        optAppendHead (fs.filter (fieldMatchB k nm)) v := by
  intro fs
  induction fs with
  | nil => rfl
  | cons f rest ih =>
    by_cases hm : f.name = nm ∧ f.field_type = k
    · have hpf : fieldMatchB k nm f = true := by
        simp [fieldMatchB, hm.1, hm.2]
      have hpf2 : fieldMatchB k nm { f with options := f.options ++ [v] } =
          true := by
        simp [fieldMatchB, hm.1, hm.2]
      simp only [addOptionToFirst, if_pos hm, List.filter_cons, hpf, hpf2,
        if_true, optAppendHead]
    · have hpf : fieldMatchB k nm f = false := by
        simp only [fieldMatchB, Bool.and_eq_false_iff, beq_eq_false_iff_ne]
        by_cases h1 : f.name = nm
        · exact Or.inr (fun h2 => hm ⟨h1, h2⟩)
        · exact Or.inl h1
      simp [addOptionToFirst, hm, List.filter_cons, hpf, ih]

/-- Appending to the first match of a different `(name, type)` pair leaves
the filtered group fields unchanged. -/
theorem filter_addOptionToFirst_other (k nm n t v : String)
    (h : ¬(n = nm ∧ t = k)) :
    ∀ fs : List FormField,
      (addOptionToFirst fs n t v).filter (fieldMatchB k nm) =
        fs.filter (fieldMatchB k nm) := by
  intro fs
  induction fs with
  | nil => rfl
  | cons f rest ih =>
    by_cases hm : f.name = n ∧ f.field_type = t
    · have hpf : fieldMatchB k nm f = false := by
        simp only [fieldMatchB, Bool.and_eq_false_iff, beq_eq_false_iff_ne]
        by_cases h1 : f.name = nm
        · refine Or.inr (fun h2 => h ⟨?_, ?_⟩)
          · rw [← hm.1, h1]
          · rw [← hm.2, h2]
        · exact Or.inl h1
      have hpf2 : fieldMatchB k nm { f with options := f.options ++ [v] } =
          false := by
        simpa [fieldMatchB] using hpf
      simp only [addOptionToFirst, if_pos hm, List.filter_cons, hpf, hpf2,
        Bool.false_eq_true, if_false]
    · have he : fieldMatchB k nm f = fieldMatchB k nm f := rfl
      simp [addOptionToFirst, hm, List.filter_cons, ih]

/-- One `_process_input_field` step, seen through the group filter: a group
member creates or extends the single group field, anything else leaves the
filtered group fields unchanged. -/
theorem process_filter_step (k nm : String)
    (hk : k = "checkbox" ∨ k = "radio") (i : InputElem)
    (fs : List FormField) :
    (process_input_field i fs).filter (fieldMatchB k nm) =
      if inGroupB k nm i then
        stepApply k nm (fs.filter (fieldMatchB k nm)) i
      else fs.filter (fieldMatchB k nm) := by
  have hlab : ∀ s fid, find_label_text (.str s) fid = "" :=
    find_label_text_str
  by_cases hg : inGroupB k nm i = true
  · obtain ⟨h1, h2⟩ : effType i = k ∧ effName i = nm := by
      have := hg
      simp only [inGroupB, Bool.and_eq_true, beq_iff_eq] at this
      exact this
    rw [hg, if_pos rfl]
    have hnothid : ¬(effType i = "hidden") := by
      rw [h1]
      rcases hk with rfl | rfl <;> decide
    have hcb : effType i = "checkbox" ∨ effType i = "radio" := by
      rw [h1]
      exact hk
    simp only [process_input_field, if_neg hnothid, if_pos hcb, hlab]
    by_cases ha : (fs.any fun f =>
        f.name == effName i && f.field_type == effType i) = true
    · rw [if_pos ha]
      rw [h1, h2]
      rw [filter_addOptionToFirst_match]
      obtain ⟨f0, hf0, hpf0⟩ := List.any_eq_true.1 ha
      have hmem : f0 ∈ fs.filter (fieldMatchB k nm) := by
        refine List.mem_filter.2 ⟨hf0, ?_⟩
        rw [← h1, ← h2]
        exact hpf0
      cases hfe : fs.filter (fieldMatchB k nm) with
      | nil => rw [hfe] at hmem; simp at hmem
      | cons g t =>
        simp [optAppendHead, stepApply, cbOptionValue]
    · rw [if_neg ha]
      rw [List.filter_append]
      have hnew : fieldMatchB k nm
          { name := effName i, field_id := attrOr i.id_attr,
            field_type := effType i,
            label := cbLabelText i "",
            required := i.required_attr.isSome,
            options := [pyOrStr (attrOr i.value_attr) (cbLabelText i "")],
            placeholder := attrOr i.placeholder_attr } = true := by
        simp [fieldMatchB, h1, h2]
      have hflt : fs.filter (fieldMatchB k nm) = [] := by
        rw [List.filter_eq_nil_iff]
        intro f hf hpf
        apply ha
        refine List.any_eq_true.2 ⟨f, hf, ?_⟩
        rw [h1, h2]
        exact hpf
      rw [hflt]
      simp only [List.filter_cons, hnew, if_pos, List.filter_nil,
        List.nil_append, stepApply]
      simp [mkGroupField, h1, h2, cbOptionValue]
  · have hg2 : inGroupB k nm i = false := by
      simpa using hg
    rw [hg2]
    simp only [Bool.false_eq_true, if_false]
    have hng : ¬(effType i = k ∧ effName i = nm) := by
      intro hc
      refine hg ?_
      simp only [inGroupB, Bool.and_eq_true, beq_iff_eq]
      exact hc
    by_cases hhid : effType i = "hidden"
    · simp only [process_input_field, if_pos hhid]
    · simp only [process_input_field, if_neg hhid, hlab]
      by_cases hcb : effType i = "checkbox" ∨ effType i = "radio"
      · rw [if_pos hcb]
        by_cases ha : (fs.any fun f =>
            f.name == effName i && f.field_type == effType i) = true
        · rw [if_pos ha]
          refine filter_addOptionToFirst_other k nm (effName i) (effType i) _
            ?_ fs
          intro hc
          exact hng ⟨hc.2, hc.1⟩
        · rw [if_neg ha]
          rw [List.filter_append]
          have hnew : fieldMatchB k nm
              { name := effName i, field_id := attrOr i.id_attr,
                field_type := effType i,
                label := cbLabelText i "",
                required := i.required_attr.isSome,
                options := [pyOrStr (attrOr i.value_attr) (cbLabelText i "")],
                placeholder := attrOr i.placeholder_attr } = false := by
            simp only [fieldMatchB, Bool.and_eq_false_iff,
              beq_eq_false_iff_ne]
            by_cases h1 : effName i = nm
            · exact Or.inr (fun h2 => hng ⟨h2, h1⟩)
            · exact Or.inl h1
          simp [List.filter_cons, hnew]
      · rw [if_neg hcb]
        rw [List.filter_append]
        have hnew : fieldMatchB k nm
            { name := effName i, field_id := attrOr i.id_attr,
              field_type := effType i,
              label := "",
              required := i.required_attr.isSome,
              options := [],
              placeholder := attrOr i.placeholder_attr } = false := by
          simp only [fieldMatchB, Bool.and_eq_false_iff,
            beq_eq_false_iff_ne]
          refine Or.inr ?_
          intro h2
          rcases hk with rfl | rfl <;> simp [h2] at hcb
        simp [List.filter_cons, hnew]

/-- The input-processing fold, seen through the group filter, is the
accumulated group action over the group members in DOM order. -/
theorem fold_filter_group (k nm : String)
    (hk : k = "checkbox" ∨ k = "radio") :
    ∀ (inputs : List InputElem) (fs : List FormField),
      ((inputs.foldl (fun acc i => process_input_field i acc) fs).filter
          (fieldMatchB k nm)) =
        applyGroup k nm (fs.filter (fieldMatchB k nm))
          (inputs.filter (inGroupB k nm)) := by
  intro inputs
  induction inputs with
  | nil => intro fs; rfl
  | cons i rest ih =>
    intro fs
    rw [List.foldl_cons, List.filter_cons,
      ih (process_input_field i fs), process_filter_step k nm hk i fs]
    by_cases hi : inGroupB k nm i = true
    · rw [if_pos hi, if_pos hi]
      rfl
    · rw [if_neg hi, if_neg hi]

/-- Running the group action from a singleton appends one option value per
member, in order. -/
theorem applyGroup_cons_single (k nm : String) :
    ∀ (g : List InputElem) (f : FormField),
      applyGroup k nm [f] g =
        [{ f with
            options := f.options ++ g.map (fun i => cbOptionValue i "") }] := by
  intro g
  induction g with
  | nil => intro f; simp [applyGroup]
  | cons i g ih =>
    intro f
    rw [show applyGroup k nm [f] (i :: g) =
      applyGroup k nm (stepApply k nm [f] i) g from rfl]
    rw [show stepApply k nm [f] i =
      [{ f with options := f.options ++ [cbOptionValue i ""] }] from rfl]
    rw [ih]
    simp

/-- Running the group action from the empty state over a non-empty group
creates exactly one field holding every member's option value in order. -/
theorem applyGroup_nil_start (k nm : String) (i : InputElem)
    (g : List InputElem) :
    applyGroup k nm [] (i :: g) =
      [{ mkGroupField k nm i with
          options := (i :: g).map (fun j => cbOptionValue j "") }] := by
  rw [show applyGroup k nm [] (i :: g) =
    applyGroup k nm [mkGroupField k nm i] g from rfl]
  rw [applyGroup_cons_single]
  simp [mkGroupField]

/-- Textarea fields never match a checkbox/radio group filter. -/
theorem textarea_fields_not_group (k nm : String)
    (hk : k = "checkbox" ∨ k = "radio") (c : FormContainer) :
    ∀ l : List TextareaElem,
      (l.map (textareaField c)).filter (fieldMatchB k nm) = [] := by
  intro l
  induction l with
  | nil => rfl
  | cons t l ih =>
    have h : fieldMatchB k nm (textareaField c t) = false := by
      rcases hk with rfl | rfl <;> simp +decide [fieldMatchB, textareaField]
    simp [List.filter_cons, h, ih]

/-- Select fields never match a checkbox/radio group filter. -/
theorem select_fields_not_group (k nm : String)
    (hk : k = "checkbox" ∨ k = "radio") (c : FormContainer) :
    ∀ l : List SelectElem,
      (l.map (selectField c)).filter (fieldMatchB k nm) = [] := by
  intro l
  induction l with
  | nil => rfl
  | cons s l ih =>
    have h : fieldMatchB k nm (selectField c s) = false := by
      rcases hk with rfl | rfl <;> simp +decide [fieldMatchB, selectField]
    simp [List.filter_cons, h, ih]

/-- C2: all checkbox (resp. radio) inputs of a container sharing a name are
merged into exactly one `FormField` of that kind, whose options list holds
one entry per group input in DOM-encounter order, so its option count
equals the size of the group. -/
theorem grouped_inputs_merged_into_one_field (c : FormContainer)
    (k nm : String) (hk : k = "checkbox" ∨ k = "radio")
    (i0 : InputElem) (g : List InputElem)
    (hg : c.inputs.filter (inGroupB k nm) = i0 :: g) :
    (extract_form_fields c).filter (fieldMatchB k nm) =
      [{ mkGroupField k nm i0 with
          options := (i0 :: g).map (fun i => cbOptionValue i "") }] ∧
    ((extract_form_fields c).filter (fieldMatchB k nm)).length = 1 ∧
    ∀ f ∈ (extract_form_fields c).filter (fieldMatchB k nm),
      f.options.length = (c.inputs.filter (inGroupB k nm)).length := by
  have hmain : (extract_form_fields c).filter (fieldMatchB k nm) =
      [{ mkGroupField k nm i0 with
          options := (i0 :: g).map (fun i => cbOptionValue i "") }] := by
    rw [extract_form_fields, List.filter_append, List.filter_append]
    rw [textarea_fields_not_group k nm hk c c.textareas,
      select_fields_not_group k nm hk c c.selects]
    rw [fold_filter_group k nm hk c.inputs [], hg]
    rw [List.filter_nil, applyGroup_nil_start]
    simp
  refine ⟨hmain, by rw [hmain]; rfl, ?_⟩
  intro f hf
  rw [hmain] at hf
  rw [List.mem_singleton.1 hf, hg]
  simp

/-- Witness for C2 on the two-checkbox `petsContainer`. -/
theorem grouped_inputs_merged_into_one_field_witness :
    petsContainer.inputs.filter (inGroupB "checkbox" "pets") =
      [checkboxInput "dog", checkboxInput "cat"] ∧
    (extract_form_fields petsContainer).filter
        (fieldMatchB "checkbox" "pets") =
      [{ mkGroupField "checkbox" "pets" (checkboxInput "dog") with
          options := ["dog", "cat"] }] := by
  refine ⟨rfl, ?_⟩
  have h := (grouped_inputs_merged_into_one_field petsContainer "checkbox"
    "pets" (Or.inl rfl) (checkboxInput "dog") [checkboxInput "cat"] rfl).1
  rw [h]
  rfl

/-- Field lines are all indented, hence never procedure definitions. -/
theorem fieldLines_no_def_pref (f : FormField) :
    (fieldLines f).filter (strHasPref "def fill_") = [] := by
  rw [fieldLines]
  split_ifs <;> try simp [strHasPref, String.data_append, listPref]
  cases f.options with
  | nil => simp
  | cons o os => simp [strHasPref, String.data_append, listPref]

/-- Field lines never look like driver-section calls. -/
theorem fieldLines_no_call_pref (f : FormField) :
    (fieldLines f).filter (strHasPref "    fill_") = [] := by
  rw [fieldLines]
  split_ifs <;> try simp [strHasPref, String.data_append, listPref]
  cases f.options with
  | nil => simp
  | cons o os => simp [strHasPref, String.data_append, listPref]

/-- Filtering a flattened list whose chunks each filter to nothing. -/
theorem filter_flatten_nil (p : String → Bool) :
    ∀ L : List (List String), (∀ l ∈ L, l.filter p = []) →
      L.flatten.filter p = [] := by
  intro L
  induction L with
  | nil => intro _; rfl
  | cons a L ih =>
    intro h
    rw [List.flatten_cons, List.filter_append, h a (List.mem_cons_self a L),
      ih (fun l hl => h l (List.mem_cons_of_mem a hl))]
    rfl

/-- A fill-procedure block contains exactly one definition line. -/
theorem procBlock_filter_def (fm : Form) :
    (procBlock fm).filter (strHasPref "def fill_") = [defLineOf fm] := by
  have hf : ((fm.fields.map fieldLines).flatten).filter
      (strHasPref "def fill_") = [] := by
    refine filter_flatten_nil _ _ ?_
    intro l hl
    obtain ⟨f, hfmem, rfl⟩ := List.mem_map.1 hl
    exact fieldLines_no_def_pref f
  cases hs : fm.submit_button with
  | none =>
    simp [procBlock, defLineOf, hs, List.filter_append, hf,
      strHasPref, String.data_append, listPref]
  | some b =>
    simp [procBlock, defLineOf, hs, List.filter_append, hf,
      strHasPref, String.data_append, listPref]

/-- A fill-procedure block contains no driver-section call line. -/
theorem procBlock_filter_call (fm : Form) :
    (procBlock fm).filter (strHasPref "    fill_") = [] := by
  have hf : ((fm.fields.map fieldLines).flatten).filter
      (strHasPref "    fill_") = [] := by
    refine filter_flatten_nil _ _ ?_
    intro l hl
    obtain ⟨f, hfmem, rfl⟩ := List.mem_map.1 hl
    exact fieldLines_no_call_pref f
  cases hs : fm.submit_button with
  | none =>
    simp [procBlock, hs, List.filter_append, hf,
      strHasPref, String.data_append, listPref]
  | some b =>
    simp [procBlock, hs, List.filter_append, hf,
      strHasPref, String.data_append, listPref]

/-- A driver block contains exactly one call line. -/
theorem mainBlock_filter_call (fm : Form) :
    (mainBlock fm).filter (strHasPref "    fill_") = [callLineOf fm] := by
  simp [mainBlock, callLineOf, strHasPref, String.data_append, listPref]

/-- A driver block contains no definition line. -/
theorem mainBlock_filter_def (fm : Form) :
    (mainBlock fm).filter (strHasPref "def fill_") = [] := by
  simp [mainBlock, strHasPref, String.data_append, listPref]

/-- The concatenated procedure blocks contain exactly the definition lines,
in form order. -/
theorem procBlocks_filter_def :
    ∀ forms : List Form,
      ((forms.map procBlock).flatten).filter (strHasPref "def fill_") =
        forms.map defLineOf := by
  intro forms
  induction forms with
  | nil => rfl
  | cons fm forms ih =>
    rw [List.map_cons, List.flatten_cons, List.filter_append,
      procBlock_filter_def, ih, List.map_cons]
    rfl

/-- The concatenated driver blocks contain exactly the call lines, in form
order. -/
theorem mainBlocks_filter_call :
    ∀ forms : List Form,
      ((forms.map mainBlock).flatten).filter (strHasPref "    fill_") =
        forms.map callLineOf := by
  intro forms
  induction forms with
  | nil => rfl
  | cons fm forms ih =>
    rw [List.map_cons, List.flatten_cons, List.filter_append,
      mainBlock_filter_call, ih, List.map_cons]
    rfl

/-- C4: for a successful result with a non-empty forms list the generated
script is the newline-join of `scriptLines`, which contain exactly one
fill-procedure definition per form in discovery order, followed by a driver
section calling each procedure in the same order, and end with the
browser-teardown call. -/
theorem script_one_procedure_per_form (r : AnalysisResult)
    (h1 : r.success = true) (h2 : r.forms ≠ []) :
    generate_helium_script r = String.intercalate "\n" (scriptLines r) ∧
    (scriptLines r).filter (strHasPref "def fill_") =
      r.forms.map defLineOf ∧
    (scriptLines r).filter (strHasPref "    fill_") =
      r.forms.map callLineOf ∧
    (scriptLines r).getLast? = some "    kill_browser()" ∧
    ∃ pre, scriptLines r =
        pre ++ (["# Main execution", "if __name__ == '__main__':"]
          ++ ((r.forms.map mainBlock).flatten
            ++ ["    # Close the browser when done", "    kill_browser()"])) ∧
      pre.filter (strHasPref "    fill_") = [] := by
  have hmain_no_def : ((r.forms.map mainBlock).flatten).filter
      (strHasPref "def fill_") = [] := by
    refine filter_flatten_nil _ _ ?_
    intro l hl
    obtain ⟨fm, hm, rfl⟩ := List.mem_map.1 hl
    exact mainBlock_filter_def fm
  have hproc_no_call : ((r.forms.map procBlock).flatten).filter
      (strHasPref "    fill_") = [] := by
    refine filter_flatten_nil _ _ ?_
    intro l hl
    obtain ⟨fm, hm, rfl⟩ := List.mem_map.1 hl
    exact procBlock_filter_call fm
  refine ⟨?_, ?_, ?_, ?_, ?_⟩
  · rw [generate_helium_script, if_neg]
    simp [h1, h2]
  · rw [scriptLines]
    simp only [List.filter_append, procBlocks_filter_def, hmain_no_def]
    simp [strHasPref, String.data_append, listPref]
  · rw [scriptLines]
    simp only [List.filter_append, mainBlocks_filter_call, hproc_no_call]
    simp [strHasPref, String.data_append, listPref]
  · rw [scriptLines, List.getLast?_append]
    rfl
  · refine ⟨(["# Auto-generated Helium script for form interaction",
      "from helium import *", "from time import sleep", "",
      "# Navigate to the target page", "go_to('" ++ r.url ++ "')",
      "sleep(2)  # Wait for page to load", ""]
        ++ (r.forms.map procBlock).flatten), ?_, ?_⟩
    · rw [scriptLines]
      simp [List.append_assoc]
    · rw [List.filter_append, hproc_no_call]
      simp [strHasPref, String.data_append, listPref]

/-- Witness for C4 on the concrete one-form `sampleResult`. -/
theorem script_one_procedure_per_form_witness :
    sampleResult.success = true ∧ sampleResult.forms ≠ [] ∧
    (scriptLines sampleResult).filter (strHasPref "def fill_") =
      sampleResult.forms.map defLineOf ∧
    (scriptLines sampleResult).getLast? = some "    kill_browser()" :=
  ⟨rfl, by simp [sampleResult],
   (script_one_procedure_per_form sampleResult rfl
     (by simp [sampleResult])).2.1,
   (script_one_procedure_per_form sampleResult rfl
     (by simp [sampleResult])).2.2.2.1⟩

/-- Hex digits read back to their value. -/
theorem hexVal_hexDigitChar (m : Nat) (h : m < 16) :
    hexVal (hexDigitChar m) = some m := by
  interval_cases m <;> decide

/-- `readU` inverts `hex4` below `0x10000`. -/
theorem readU_hex4 (n : Nat) (h : n < 65536) (t : List Char) :
    readU (hex4 n ++ t) = some (n, t) := by
  simp only [hex4, List.cons_append, List.nil_append, readU,
    hexVal_hexDigitChar (n / 4096 % 16) (Nat.mod_lt _ (by norm_num)),
    hexVal_hexDigitChar (n / 256 % 16) (Nat.mod_lt _ (by norm_num)),
    hexVal_hexDigitChar (n / 16 % 16) (Nat.mod_lt _ (by norm_num)),
    hexVal_hexDigitChar (n % 16) (Nat.mod_lt _ (by norm_num))]
  have e : 4096 * (n / 4096 % 16) + 256 * (n / 256 % 16) +
      16 * (n / 16 % 16) + n % 16 = n := by omega
  rw [e]

/-- Every `Char` is a Unicode scalar value. -/
theorem char_scalar (c : Char) :
    c.toNat < 55296 ∨ (57343 < c.toNat ∧ c.toNat < 1114112) :=
  c.valid

/-- Escaping a character writes at least one character. -/
theorem escChar_length_pos (c : Char) : 1 ≤ (escChar c).length := by
  rw [escChar]
  split_ifs <;> simp [hex4]

/-- Escaping never shortens a string. -/
theorem escapeChars_length (cs : List Char) :
    cs.length ≤ (escapeChars cs).length := by
  induction cs with
  | nil => simp [escapeChars]
  | cons c cs ih =>
    have := escChar_length_pos c
    simp only [escapeChars, List.length_append, List.length_cons]
    omega

/-- Reading a low-surrogate escape after `\u`. -/
theorem readLowSurrogate_hex4 (m : Nat) (hm1 : 0xDC00 ≤ m) (hm2 : m < 0xE000)
    (t : List Char) :
    readLowSurrogate ('\\' :: 'u' :: (hex4 m ++ t)) = some (m, t) := by
  have h : m < 65536 := by omega
  rw [show readLowSurrogate ('\\' :: 'u' :: (hex4 m ++ t)) =
    (match readU (hex4 m ++ t) with
     | some (m2, r2) =>
       if 0xDC00 ≤ m2 ∧ m2 < 0xE000 then some (m2, r2) else none
     | none => none) from by
    rw [readLowSurrogate, if_pos ⟨rfl, rfl⟩]]
  rw [readU_hex4 m h]
  exact if_pos ⟨hm1, hm2⟩

/-- One reader step over an unescaped character. -/
theorem strBodyGo_lit (c : Char) (cs rest : List Char) (f : Nat)
    (hih : strBodyGo f (escapeChars cs ++ ('"' :: rest)) = some (cs, rest))
    (h1 : ¬c = '"') (h2 : ¬c = '\\') :
    strBodyGo (f + 1) (c :: (escapeChars cs ++ ('"' :: rest))) =
      some (c :: cs, rest) := by
  simp only [strBodyGo]
  rw [if_neg h1, if_neg h2, hih]
  rfl

/-- One reader step over a two-character escape. -/
theorem strBodyGo_esc2 (k e : Char) (cs rest : List Char) (f : Nat)
    (hih : strBodyGo f (escapeChars cs ++ ('"' :: rest)) = some (cs, rest))
    (hk : ¬(k = 'u')) (he : escMap k = some e) :
    strBodyGo (f + 1) ('\\' :: k :: (escapeChars cs ++ ('"' :: rest))) =
      some (e :: cs, rest) := by
  simp only [strBodyGo]
  rw [if_neg (by decide : ¬(('\\' : Char) = '"'))]
  rw [if_pos trivial]
  rw [if_neg hk, he, hih]
  rfl

/-- One reader step over a BMP `\uXXXX` escape outside the surrogate
range. -/
theorem strBodyGo_u (n : Nat) (cs rest : List Char) (f : Nat)
    (hih : strBodyGo f (escapeChars cs ++ ('"' :: rest)) = some (cs, rest))
    (h9 : n < 65536) (hsur : ¬(0xD800 ≤ n ∧ n < 0xDC00)) :
    strBodyGo (f + 1)
      ('\\' :: 'u' :: (hex4 n ++ (escapeChars cs ++ ('"' :: rest)))) =
      some (Char.ofNat n :: cs, rest) := by
  simp only [strBodyGo, if_true, readU_hex4 _ h9]
  rw [if_neg (by decide : ¬(('\\' : Char) = '"'))]
  rw [if_neg hsur, hih]
  rfl

/-- One reader step over a surrogate-pair escape. -/
theorem strBodyGo_pair (hi lo n : Nat) (cs rest : List Char) (f : Nat)
    (hih : strBodyGo f (escapeChars cs ++ ('"' :: rest)) = some (cs, rest))
    (hhi : hi < 65536)
    (hhi2 : 0xD800 ≤ hi ∧ hi < 0xDC00)
    (hlo2a : 0xDC00 ≤ lo) (hlo2b : lo < 0xE000)
    (harg : 65536 + (hi - 55296) * 1024 + (lo - 56320) = n) :
    strBodyGo (f + 1)
      (('\\' :: 'u' :: hex4 hi ++ ('\\' :: 'u' :: hex4 lo)) ++
        (escapeChars cs ++ ('"' :: rest))) =
      some (Char.ofNat n :: cs, rest) := by
  simp only [List.cons_append, List.append_assoc]
  simp only [strBodyGo, if_true, readU_hex4 _ hhi]
  rw [if_neg (by decide : ¬(('\\' : Char) = '"'))]
  rw [if_pos hhi2]
  simp only [readLowSurrogate_hex4 _ hlo2a hlo2b, hih]
  rw [harg]
  rfl

/-- The string-body reader inverts `json.dumps` escaping, given one unit of
fuel per source character. -/
theorem strBodyGo_escape :
    ∀ (cs : List Char) (f : Nat) (rest : List Char), cs.length < f →
      strBodyGo f (escapeChars cs ++ ('"' :: rest)) = some (cs, rest) := by
  intro cs
  induction cs with
  | nil =>
    intro f rest hf
    cases f with
    | zero => omega
    | succ f => simp [escapeChars, strBodyGo]
  | cons c cs ih =>
    intro f rest hf
    cases f with
    | zero => omega
    | succ f =>
      have hih := ih f rest (by
        simp only [List.length_cons] at hf
        omega)
      have he : escapeChars (c :: cs) ++ ('"' :: rest) =
          escChar c ++ (escapeChars cs ++ ('"' :: rest)) := by
        simp [escapeChars]
      rw [he]
      by_cases h1 : c = '"'
      · subst h1
        rw [show escChar '"' ++ (escapeChars cs ++ ('"' :: rest)) =
          '\\' :: '"' :: (escapeChars cs ++ ('"' :: rest)) from rfl]
        exact strBodyGo_esc2 '"' '"' cs rest f hih (by decide) (by decide)
      · by_cases h2 : c = '\\'
        · subst h2
          rw [show escChar '\\' ++ (escapeChars cs ++ ('"' :: rest)) =
            '\\' :: '\\' :: (escapeChars cs ++ ('"' :: rest)) from rfl]
          exact strBodyGo_esc2 '\\' '\\' cs rest f hih (by decide) (by decide)
        · by_cases h3 : c = Char.ofNat 8
          · subst h3
            rw [show escChar (Char.ofNat 8) ++ (escapeChars cs ++ ('"' :: rest)) =
              '\\' :: 'b' :: (escapeChars cs ++ ('"' :: rest)) from rfl]
            exact strBodyGo_esc2 'b' (Char.ofNat 8) cs rest f hih (by decide)
              (by decide)
          · by_cases h4 : c = Char.ofNat 12
            · subst h4
              rw [show escChar (Char.ofNat 12) ++ (escapeChars cs ++ ('"' :: rest)) =
                '\\' :: 'f' :: (escapeChars cs ++ ('"' :: rest)) from rfl]
              exact strBodyGo_esc2 'f' (Char.ofNat 12) cs rest f hih (by decide)
                (by decide)
            · by_cases h5 : c = '\n'
              · subst h5
                rw [show escChar '\n' ++ (escapeChars cs ++ ('"' :: rest)) =
                  '\\' :: 'n' :: (escapeChars cs ++ ('"' :: rest)) from rfl]
                exact strBodyGo_esc2 'n' '\n' cs rest f hih (by decide) (by decide)
              · by_cases h6 : c = '\r'
                · subst h6
                  rw [show escChar '\r' ++ (escapeChars cs ++ ('"' :: rest)) =
                    '\\' :: 'r' :: (escapeChars cs ++ ('"' :: rest)) from rfl]
                  exact strBodyGo_esc2 'r' '\r' cs rest f hih (by decide)
                    (by decide)
                · by_cases h7 : c = '\t'
                  · subst h7
                    rw [show escChar '\t' ++ (escapeChars cs ++ ('"' :: rest)) =
                      '\\' :: 't' :: (escapeChars cs ++ ('"' :: rest)) from rfl]
                    exact strBodyGo_esc2 't' '\t' cs rest f hih (by decide)
                      (by decide)
                  · by_cases h8 : 0x20 ≤ c.toNat ∧ c.toNat ≤ 0x7E
                    · rw [show escChar c = [c] from by
                        rw [escChar, if_neg h1, if_neg h2, if_neg h3,
                          if_neg h4, if_neg h5, if_neg h6, if_neg h7,
                          if_pos h8]]
                      rw [List.singleton_append]
                      exact strBodyGo_lit c cs rest f hih h1 h2
                    · by_cases h9 : c.toNat < 65536
                      · rw [show escChar c =
                            '\\' :: 'u' :: hex4 c.toNat from by
                          rw [escChar, if_neg h1, if_neg h2, if_neg h3,
                            if_neg h4, if_neg h5, if_neg h6, if_neg h7,
                            if_neg h8, if_pos h9]]
                        have hsur : ¬(0xD800 ≤ c.toNat ∧ c.toNat < 0xDC00) := by
                          rcases char_scalar c with h | h <;> omega
                        rw [List.cons_append, List.cons_append]
                        have hu := strBodyGo_u c.toNat cs rest f hih h9 hsur
                        rw [Char.ofNat_toNat] at hu
                        exact hu
                      · have hval : c.toNat < 1114112 := by
                          rcases char_scalar c with h | h <;> omega
                        rw [show escChar c =
                            '\\' :: 'u' :: hex4 (0xD800 + (c.toNat - 0x10000) / 1024) ++
                              ('\\' :: 'u' :: hex4 (0xDC00 + (c.toNat - 0x10000) % 1024)) from by
                          rw [escChar, if_neg h1, if_neg h2, if_neg h3,
                            if_neg h4, if_neg h5, if_neg h6, if_neg h7,
                            if_neg h8, if_neg (by omega : ¬(c.toNat < 0x10000))]]
                        have hp := strBodyGo_pair
                          (0xD800 + (c.toNat - 0x10000) / 1024)
                          (0xDC00 + (c.toNat - 0x10000) % 1024)
                          c.toNat cs rest f hih (by omega)
                          ⟨by omega, by omega⟩ (by omega) (by omega) (by omega)
                        rw [Char.ofNat_toNat] at hp
                        exact hp

/-- `parseStrBody` inverts escaping: its input-length fuel suffices. -/
theorem parseStrBody_escape (cs : List Char) (rest : List Char) :
    parseStrBody (escapeChars cs ++ ('"' :: rest)) = some (cs, rest) := by
  apply strBodyGo_escape
  have := escapeChars_length cs
  simp only [List.length_append, List.length_cons]
  omega

/-- Skipping over one whitespace character. -/
theorem skipWs_ws (c : Char) (h : isWsChar c = true) (s : List Char) :
    skipWs (c :: s) = skipWs s := by
  simp [skipWs, h]

/-- Whitespace skipping stops at a non-whitespace head. -/
theorem skipWs_nonws (c : Char) (h : isWsChar c = false) (s : List Char) :
    skipWs (c :: s) = c :: s := by
  simp [skipWs, h]

/-- Indentation spaces are skipped. -/
theorem skipWs_spaces (n : Nat) (s : List Char) :
    skipWs (spacesChars n ++ s) = skipWs s := by
  induction n with
  | zero => simp [spacesChars]
  | succ n ih =>
    rw [spacesChars, List.replicate_succ, List.cons_append,
      skipWs_ws ' ' (by decide)]
    exact ih

/-- The value reader only looks at its input through `skipWs`. -/
theorem parseVal_congr (f : Nat) (s1 s2 : List Char)
    (h : skipWs s1 = skipWs s2) : parseVal f s1 = parseVal f s2 := by
  cases f with
  | zero => rfl
  | succ f => simp only [parseVal]; rw [h]

/-- The items reader only looks at its input through `skipWs`. -/
theorem parseItems_congr (f : Nat) (s1 s2 : List Char)
    (h : skipWs s1 = skipWs s2) : parseItems f s1 = parseItems f s2 := by
  cases f with
  | zero => rfl
  | succ f => simp only [parseItems]; rw [parseVal_congr f s1 s2 h]

/-- The members reader only looks at its input through `skipWs`. -/
theorem parseMembers_congr (f : Nat) (s1 s2 : List Char)
    (h : skipWs s1 = skipWs s2) : parseMembers f s1 = parseMembers f s2 := by
  cases f with
  | zero => rfl
  | succ f => simp only [parseMembers]; rw [h]

/-- Every printed value starts with a non-whitespace character that closes
nothing. -/
theorem printVal_head (step ind : Nat) (v : JVal) :
    ∃ c t, printVal step ind v = c :: t ∧ isWsChar c = false ∧
      ¬c = ']' ∧ ¬c = rbrace := by
  cases v with
  | null => exact ⟨'n', ['u', 'l', 'l'], rfl, by decide, by decide, by decide⟩
  | bool b =>
    cases b with
    | true => exact ⟨'t', ['r', 'u', 'e'], rfl, by decide, by decide, by decide⟩
    | false =>
      exact ⟨'f', ['a', 'l', 's', 'e'], rfl, by decide, by decide, by decide⟩
  | str s =>
    exact ⟨'"', escapeChars s.data ++ ['"'], rfl, by decide, by decide,
      by decide⟩
  | arr xs =>
    cases xs with
    | nil => exact ⟨'[', [']'], rfl, by decide, by decide, by decide⟩
    | cons v vs =>
      exact ⟨'[', '\n' :: printItems step (ind + step) (.cons v vs) ++
        ('\n' :: spacesChars ind ++ [']']), rfl, by decide, by decide,
        by decide⟩
  | obj kvs =>
    cases kvs with
    | nil => exact ⟨lbrace, [rbrace], rfl, by decide, by decide, by decide⟩
    | cons k v kvs =>
      exact ⟨lbrace, '\n' :: printMembers step (ind + step) (.cons k v kvs) ++
        ('\n' :: spacesChars ind ++ [rbrace]), rfl, by decide, by decide,
        by decide⟩

/-- After skipping whitespace, a printed value followed by anything starts
with its head character. -/
theorem skipWs_print_cons (step ind : Nat) (v : JVal) (tail : List Char) :
    ∃ c0 t0, skipWs (printVal step ind v ++ tail) = c0 :: t0 ∧
      isWsChar c0 = false ∧ ¬c0 = ']' ∧ ¬c0 = rbrace := by
  obtain ⟨c0, t0, hpv, h1, h2, h3⟩ := printVal_head step ind v
  refine ⟨c0, t0 ++ tail, ?_, h1, h2, h3⟩
  rw [hpv, List.cons_append]
  exact skipWs_nonws c0 h1 _

/-- After skipping whitespace, printed items followed by anything start with
the first item's head character. -/
theorem skipWs_items_cons (step ind : Nat) (v : JVal) (vs : JArr)
    (tail : List Char) :
    ∃ c0 t0, skipWs (printItems step ind (.cons v vs) ++ tail) = c0 :: t0 ∧
      isWsChar c0 = false ∧ ¬c0 = ']' ∧ ¬c0 = rbrace := by
  cases vs with
  | nil =>
    obtain ⟨c0, t0, hpv, h1, h2, h3⟩ :=
      skipWs_print_cons step ind v ([] ++ tail)
    refine ⟨c0, t0, ?_, h1, h2, h3⟩
    rw [show printItems step ind (.cons v .nil) =
      spacesChars ind ++ printVal step ind v ++ [] from rfl]
    rw [List.append_assoc, List.append_assoc, skipWs_spaces]
    exact hpv
  | cons w ws =>
    obtain ⟨c0, t0, hpv, h1, h2, h3⟩ :=
      skipWs_print_cons step ind v
        ((',' :: '\n' :: printItems step ind (.cons w ws)) ++ tail)
    refine ⟨c0, t0, ?_, h1, h2, h3⟩
    rw [show printItems step ind (.cons v (.cons w ws)) =
      spacesChars ind ++ printVal step ind v ++
        (',' :: '\n' :: printItems step ind (.cons w ws)) from rfl]
    rw [List.append_assoc, List.append_assoc, skipWs_spaces]
    exact hpv

/-- After skipping whitespace, printed members followed by anything start
with the opening quote of the first key. -/
theorem skipWs_members_quote (step ind : Nat) (k : String) (v : JVal)
    (kvs : JObj) (tail : List Char) :
    ∃ t0, skipWs (printMembers step ind (.cons k v kvs) ++ tail) =
      '"' :: t0 := by
  cases kvs with
  | nil =>
    refine ⟨(escapeChars k.data ++ ['"']) ++
      ((':' :: ' ' :: printVal step ind v) ++ ([] ++ tail)), ?_⟩
    rw [show printMembers step ind (.cons k v .nil) =
      spacesChars ind ++ printStr k ++ (':' :: ' ' :: printVal step ind v) ++
        [] from rfl]
    rw [List.append_assoc, List.append_assoc, List.append_assoc, skipWs_spaces]
    rw [show printStr k = '"' :: (escapeChars k.data ++ ['"']) from rfl]
    rw [List.cons_append, skipWs_nonws '"' (by decide)]
  | cons k2 v2 kvs2 =>
    refine ⟨(escapeChars k.data ++ ['"']) ++
      ((':' :: ' ' :: printVal step ind v) ++
        ((',' :: '\n' :: printMembers step ind (.cons k2 v2 kvs2)) ++ tail)),
      ?_⟩
    rw [show printMembers step ind (.cons k v (.cons k2 v2 kvs2)) =
      spacesChars ind ++ printStr k ++ (':' :: ' ' :: printVal step ind v) ++
        (',' :: '\n' :: printMembers step ind (.cons k2 v2 kvs2)) from rfl]
    rw [List.append_assoc, List.append_assoc, List.append_assoc, skipWs_spaces]
    rw [show printStr k = '"' :: (escapeChars k.data ++ ['"']) from rfl]
    rw [List.cons_append, skipWs_nonws '"' (by decide)]

/-- Sizes are positive. -/
theorem sizeJ_pos (v : JVal) : 1 ≤ sizeJ v := by
  cases v <;> simp only [sizeJ] <;> omega

/-- Array sizes are positive. -/
theorem sizeArr_pos (xs : JArr) : 1 ≤ sizeArr xs := by
  cases xs <;> simp only [sizeArr] <;> omega

/-- Object sizes are positive. -/
theorem sizeObj_pos (kvs : JObj) : 1 ≤ sizeObj kvs := by
  cases kvs <;> simp only [sizeObj] <;> omega

mutual
/-- The reader fuel a value needs is covered by its printed length. -/
theorem sizeJ_le_print : ∀ (step ind : Nat) (v : JVal),
    sizeJ v ≤ (printVal step ind v).length + 1
  | _, _, .null => by simp [printVal, sizeJ]
  | _, _, .bool true => by simp [printVal, sizeJ]
  | _, _, .bool false => by simp [printVal, sizeJ]
  | _, _, .str s => by simp only [sizeJ]; omega
  | _, _, .arr .nil => by simp [printVal, sizeJ, sizeArr]
  | step, ind, .arr (.cons v vs) => by
    have h := sizeArr_le_print step (ind + step) (.cons v vs)
    simp only [sizeJ, printVal, List.length_cons, List.length_append,
      spacesChars, List.length_replicate]
    omega
  | _, _, .obj .nil => by simp [printVal, sizeJ, sizeObj]
  | step, ind, .obj (.cons k v kvs) => by
    have h := sizeObj_le_print step (ind + step) (.cons k v kvs)
    simp only [sizeJ, printVal, List.length_cons, List.length_append,
      spacesChars, List.length_replicate]
    omega
/-- The reader fuel an item list needs is covered by its printed length. -/
theorem sizeArr_le_print : ∀ (step ind : Nat) (xs : JArr),
    sizeArr xs ≤ (printItems step ind xs).length + 3
  | _, _, .nil => by simp [printItems, sizeArr]
  | step, ind, .cons v .nil => by
    have h1 := sizeJ_le_print step ind v
    simp only [sizeArr, sizeJ, printItems, List.length_append,
      List.length_nil, spacesChars, List.length_replicate]
    omega
  | step, ind, .cons v (.cons w ws) => by
    have h1 := sizeJ_le_print step ind v
    have h2 := sizeArr_le_print step ind (.cons w ws)
    simp only [sizeArr, printItems, List.length_append, List.length_cons,
      spacesChars, List.length_replicate] at h2 ⊢
    omega
/-- The reader fuel a member list needs is covered by its printed length. -/
theorem sizeObj_le_print : ∀ (step ind : Nat) (kvs : JObj),
    sizeObj kvs ≤ (printMembers step ind kvs).length + 3
  | _, _, .nil => by simp [printMembers, sizeObj]
  | step, ind, .cons k v .nil => by
    have h1 := sizeJ_le_print step ind v
    simp only [sizeObj, printMembers, List.length_append, List.length_nil,
      List.length_cons, spacesChars, List.length_replicate]
    omega
  | step, ind, .cons k v (.cons k2 v2 kvs2) => by
    have h1 := sizeJ_le_print step ind v
    have h2 := sizeObj_le_print step ind (.cons k2 v2 kvs2)
    simp only [sizeObj, printMembers, List.length_append, List.length_cons,
      spacesChars, List.length_replicate] at h2 ⊢
    omega
end

/-- Reading `null`. -/
theorem parseVal_null_helper (f : Nat) (rest : List Char) :
    parseVal (f + 1) ('n' :: 'u' :: 'l' :: 'l' :: rest) =
      some (.null, rest) := by
  simp only [parseVal]
  rw [skipWs_nonws 'n' (by decide)]
  simp

/-- Reading `true`. -/
theorem parseVal_true_helper (f : Nat) (rest : List Char) :
    parseVal (f + 1) ('t' :: 'r' :: 'u' :: 'e' :: rest) =
      some (.bool true, rest) := by
  simp only [parseVal]
  rw [skipWs_nonws 't' (by decide)]
  simp

/-- Reading `false`. -/
theorem parseVal_false_helper (f : Nat) (rest : List Char) :
    parseVal (f + 1) ('f' :: 'a' :: 'l' :: 's' :: 'e' :: rest) =
      some (.bool false, rest) := by
  simp only [parseVal]
  rw [skipWs_nonws 'f' (by decide)]
  simp

/-- Reading a string literal. -/
theorem parseVal_str_helper (f : Nat) (cs rest body : List Char)
    (hbody : parseStrBody body = some (cs, rest)) :
    parseVal (f + 1) ('"' :: body) = some (.str (String.mk cs), rest) := by
  simp only [parseVal]
  rw [skipWs_nonws '"' (by decide)]
  simp [hbody]

/-- Reading `[]`. -/
theorem parseVal_arrNil_helper (f : Nat) (rest : List Char) :
    parseVal (f + 1) ('[' :: (']' :: rest)) = some (.arr .nil, rest) := by
  simp only [parseVal]
  rw [skipWs_nonws '[' (by decide)]
  simp [skipWs_nonws ']' (by decide)]

/-- Reading a non-empty array once the items reader is known to succeed. -/
theorem parseVal_arrCons_helper (f step ind : Nat) (v : JVal) (vs : JArr)
    (rest : List Char)
    (hitems : parseItems f (printItems step (ind + step) (.cons v vs) ++
        ('\n' :: (spacesChars ind ++ (']' :: rest)))) =
      some (.cons v vs, rest)) :
    parseVal (f + 1) (printVal step ind (.arr (.cons v vs)) ++ rest) =
      some (.arr (.cons v vs), rest) := by
  rw [show printVal step ind (.arr (.cons v vs)) ++ rest =
    '[' :: ('\n' :: (printItems step (ind + step) (.cons v vs) ++
      ('\n' :: (spacesChars ind ++ (']' :: rest))))) from by
    simp [printVal, List.cons_append, List.append_assoc]]
  simp only [parseVal]
  rw [skipWs_nonws '[' (by decide)]
  obtain ⟨c0, t0, hsk, hws, hc1, hc2⟩ :=
    skipWs_items_cons step (ind + step) v vs
      ('\n' :: (spacesChars ind ++ (']' :: rest)))
  have hr : skipWs ('\n' :: (printItems step (ind + step) (.cons v vs) ++
      ('\n' :: (spacesChars ind ++ (']' :: rest))))) = c0 :: t0 := by
    rw [skipWs_ws '\n' (by decide)]
    exact hsk
  have hit2 : parseItems f ('\n' :: (printItems step (ind + step) (.cons v vs) ++
      ('\n' :: (spacesChars ind ++ (']' :: rest))))) =
      some (.cons v vs, rest) := by
    rw [parseItems_congr f _
      (printItems step (ind + step) (.cons v vs) ++
        ('\n' :: (spacesChars ind ++ (']' :: rest))))
      (skipWs_ws '\n' (by decide) _)]
    exact hitems
  simp [hr, hc1, hit2]

/-- Reading an empty object. -/
theorem parseVal_objNil_helper (f : Nat) (rest : List Char) :
    parseVal (f + 1) (lbrace :: (rbrace :: rest)) = some (.obj .nil, rest) := by
  simp only [parseVal]
  rw [skipWs_nonws lbrace (by decide)]
  simp +decide [skipWs_nonws rbrace (by decide)]

/-- Reading a non-empty object once the members reader is known to
succeed. -/
theorem parseVal_objCons_helper (f step ind : Nat) (k : String) (v : JVal)
    (kvs : JObj) (rest : List Char)
    (hmem : parseMembers f (printMembers step (ind + step) (.cons k v kvs) ++
        ('\n' :: (spacesChars ind ++ (rbrace :: rest)))) =
      some (.cons k v kvs, rest)) :
    parseVal (f + 1) (printVal step ind (.obj (.cons k v kvs)) ++ rest) =
      some (.obj (.cons k v kvs), rest) := by
  rw [show printVal step ind (.obj (.cons k v kvs)) ++ rest =
    lbrace :: ('\n' :: (printMembers step (ind + step) (.cons k v kvs) ++
      ('\n' :: (spacesChars ind ++ (rbrace :: rest))))) from by
    simp [printVal, List.cons_append, List.append_assoc]]
  simp only [parseVal]
  rw [skipWs_nonws lbrace (by decide)]
  obtain ⟨t0, hsk⟩ :=
    skipWs_members_quote step (ind + step) k v kvs
      ('\n' :: (spacesChars ind ++ (rbrace :: rest)))
  have hr : skipWs ('\n' :: (printMembers step (ind + step) (.cons k v kvs) ++
      ('\n' :: (spacesChars ind ++ (rbrace :: rest))))) = '"' :: t0 := by
    rw [skipWs_ws '\n' (by decide)]
    exact hsk
  have hmem2 : parseMembers f ('\n' :: (printMembers step (ind + step) (.cons k v kvs) ++
      ('\n' :: (spacesChars ind ++ (rbrace :: rest))))) =
      some (.cons k v kvs, rest) := by
    rw [parseMembers_congr f _
      (printMembers step (ind + step) (.cons k v kvs) ++
        ('\n' :: (spacesChars ind ++ (rbrace :: rest))))
      (skipWs_ws '\n' (by decide) _)]
    exact hmem
  simp +decide [hr, hmem2]

/-- Rebuilding a string from its characters is the identity. -/
theorem String_mk_data (s : String) : String.mk s.data = s := rfl

/-- The reader inverts the printer, with fuel covering the value size: one
conjunct per reader (values, array items, object members). -/
theorem parse_print (f : Nat) :
    (∀ (step ind : Nat) (v : JVal) (rest : List Char), sizeJ v ≤ f →
      parseVal f (printVal step ind v ++ rest) = some (v, rest)) ∧
    (∀ (step ind cl : Nat) (v : JVal) (vs : JArr) (rest : List Char),
      sizeArr (.cons v vs) ≤ f →
      parseItems f (printItems step ind (.cons v vs) ++
        ('\n' :: (spacesChars cl ++ (']' :: rest)))) =
        some (.cons v vs, rest)) ∧
    (∀ (step ind cl : Nat) (k : String) (v : JVal) (kvs : JObj)
        (rest : List Char),
      sizeObj (.cons k v kvs) ≤ f →
      parseMembers f (printMembers step ind (.cons k v kvs) ++
        ('\n' :: (spacesChars cl ++ (rbrace :: rest)))) =
        some (.cons k v kvs, rest)) := by
  induction f using Nat.strong_induction_on with
  | _ f ih =>
  cases f with
  | zero =>
    refine ⟨?_, ?_, ?_⟩
    · intro step ind v rest hs
      have := sizeJ_pos v
      omega
    · intro step ind cl v vs rest hs
      have := sizeArr_pos (JArr.cons v vs)
      omega
    · intro step ind cl k v kvs rest hs
      have := sizeObj_pos (JObj.cons k v kvs)
      omega
  | succ f =>
    obtain ⟨ih1, ih2, ih3⟩ := ih f (Nat.lt_succ_self f)
    refine ⟨?_, ?_, ?_⟩
    · intro step ind v rest hs
      cases v with
      | null =>
        rw [show printVal step ind .null ++ rest =
          'n' :: 'u' :: 'l' :: 'l' :: rest from rfl]
        exact parseVal_null_helper f rest
      | bool b =>
        cases b with
        | true =>
          rw [show printVal step ind (.bool true) ++ rest =
            't' :: 'r' :: 'u' :: 'e' :: rest from rfl]
          exact parseVal_true_helper f rest
        | false =>
          rw [show printVal step ind (.bool false) ++ rest =
            'f' :: 'a' :: 'l' :: 's' :: 'e' :: rest from rfl]
          exact parseVal_false_helper f rest
      | str s =>
        rw [show printVal step ind (.str s) ++ rest =
          '"' :: (escapeChars s.data ++ ('"' :: rest)) from by
          simp [printVal, printStr, List.cons_append, List.append_assoc]]
        have h := parseVal_str_helper f s.data rest
          (escapeChars s.data ++ ('"' :: rest))
          (parseStrBody_escape s.data rest)
        rw [String_mk_data] at h
        exact h
      | arr xs =>
        cases xs with
        | nil =>
          rw [show printVal step ind (.arr .nil) ++ rest =
            '[' :: (']' :: rest) from rfl]
          exact parseVal_arrNil_helper f rest
        | cons v vs =>
          have hsz : sizeArr (JArr.cons v vs) ≤ f := by
            simp only [sizeJ] at hs
            omega
          exact parseVal_arrCons_helper f step ind v vs rest
            (ih2 step (ind + step) ind v vs rest hsz)
      | obj kvs =>
        cases kvs with
        | nil =>
          rw [show printVal step ind (.obj .nil) ++ rest =
            lbrace :: (rbrace :: rest) from rfl]
          exact parseVal_objNil_helper f rest
        | cons k v kvs =>
          have hsz : sizeObj (JObj.cons k v kvs) ≤ f := by
            simp only [sizeJ] at hs
            omega
          exact parseVal_objCons_helper f step ind k v kvs rest
            (ih3 step (ind + step) ind k v kvs rest hsz)
    · intro step ind cl v vs rest hs
      cases vs with
      | nil =>
        have hsz : sizeJ v ≤ f := by
          simp only [sizeArr] at hs
          omega
        have hpv : parseVal f (printItems step ind (.cons v .nil) ++
            ('\n' :: (spacesChars cl ++ (']' :: rest)))) =
            some (v, '\n' :: (spacesChars cl ++ (']' :: rest))) := by
          rw [show printItems step ind (.cons v .nil) ++
              ('\n' :: (spacesChars cl ++ (']' :: rest))) =
            spacesChars ind ++ (printVal step ind v ++
              ('\n' :: (spacesChars cl ++ (']' :: rest)))) from by
            simp [printItems, List.append_assoc]]
          rw [parseVal_congr f _ _ (skipWs_spaces ind _)]
          exact ih1 step ind v _ hsz
        have hsk : skipWs ('\n' :: (spacesChars cl ++ (']' :: rest))) =
            ']' :: rest := by
          rw [skipWs_ws '\n' (by decide), skipWs_spaces,
            skipWs_nonws ']' (by decide)]
        simp only [parseItems]
        simp +decide [hpv, hsk]
      | cons w ws =>
        have hsz1 : sizeJ v ≤ f := by
          simp only [sizeArr] at hs
          have := sizeJ_pos w
          have := sizeArr_pos ws
          omega
        have hsz2 : sizeArr (JArr.cons w ws) ≤ f := by
          simp only [sizeArr] at hs ⊢
          have := sizeJ_pos v
          omega
        have hpv : parseVal f (printItems step ind (.cons v (.cons w ws)) ++
            ('\n' :: (spacesChars cl ++ (']' :: rest)))) =
            some (v, ',' :: ('\n' :: (printItems step ind (.cons w ws) ++
              ('\n' :: (spacesChars cl ++ (']' :: rest)))))) := by
          rw [show printItems step ind (.cons v (.cons w ws)) ++
              ('\n' :: (spacesChars cl ++ (']' :: rest))) =
            spacesChars ind ++ (printVal step ind v ++
              (',' :: ('\n' :: (printItems step ind (.cons w ws) ++
                ('\n' :: (spacesChars cl ++ (']' :: rest))))))) from by
            simp [printItems, List.cons_append, List.append_assoc]]
          rw [parseVal_congr f _ _ (skipWs_spaces ind _)]
          exact ih1 step ind v _ hsz1
        have hit : parseItems f
            ('\n' :: (printItems step ind (.cons w ws) ++
              ('\n' :: (spacesChars cl ++ (']' :: rest))))) =
            some (.cons w ws, rest) := by
          rw [parseItems_congr f _ _ (skipWs_ws '\n' (by decide) _)]
          exact ih2 step ind cl w ws rest hsz2
        simp only [parseItems]
        simp +decide [hpv, skipWs_nonws ',' (by decide), hit]
    · intro step ind cl k v kvs rest hs
      cases kvs with
      | nil =>
        have hsz : sizeJ v ≤ f := by
          simp only [sizeObj] at hs
          omega
        have hsk0 : skipWs (printMembers step ind (.cons k v .nil) ++
            ('\n' :: (spacesChars cl ++ (rbrace :: rest)))) =
            '"' :: (escapeChars k.data ++ ('"' :: (':' :: (' ' ::
              (printVal step ind v ++
                ('\n' :: (spacesChars cl ++ (rbrace :: rest)))))))) := by
          rw [show printMembers step ind (.cons k v .nil) ++
              ('\n' :: (spacesChars cl ++ (rbrace :: rest))) =
            spacesChars ind ++ ('"' :: (escapeChars k.data ++
              ('"' :: (':' :: (' ' :: (printVal step ind v ++
                ('\n' :: (spacesChars cl ++ (rbrace :: rest))))))))) from by
            simp [printMembers, printStr, List.cons_append,
              List.append_assoc]]
          rw [skipWs_spaces, skipWs_nonws '"' (by decide)]
        have hv : parseVal f (' ' :: (printVal step ind v ++
            ('\n' :: (spacesChars cl ++ (rbrace :: rest))))) =
            some (v, '\n' :: (spacesChars cl ++ (rbrace :: rest))) := by
          rw [parseVal_congr f _ _ (skipWs_ws ' ' (by decide) _)]
          exact ih1 step ind v _ hsz
        have hskT : skipWs ('\n' :: (spacesChars cl ++ (rbrace :: rest))) =
            rbrace :: rest := by
          rw [skipWs_ws '\n' (by decide), skipWs_spaces,
            skipWs_nonws rbrace (by decide)]
        simp only [parseMembers]
        simp +decide [hsk0, parseStrBody_escape,
          skipWs_nonws ':' (by decide), hv, hskT, String_mk_data]
      | cons k2 v2 kvs2 =>
        have hsz1 : sizeJ v ≤ f := by
          simp only [sizeObj] at hs
          have := sizeJ_pos v2
          have := sizeObj_pos kvs2
          omega
        have hsz2 : sizeObj (JObj.cons k2 v2 kvs2) ≤ f := by
          simp only [sizeObj] at hs ⊢
          have := sizeJ_pos v
          omega
        have hsk0 : skipWs (printMembers step ind (.cons k v (.cons k2 v2 kvs2)) ++ ('\n' :: (spacesChars cl ++ (rbrace :: rest)))) = '"' :: (escapeChars k.data ++ ('"' :: (':' :: (' ' :: (printVal step ind v ++ (',' :: ('\n' :: (printMembers step ind (.cons k2 v2 kvs2) ++ ('\n' :: (spacesChars cl ++ (rbrace :: rest))))))))))) := by
          rw [show printMembers step ind (.cons k v (.cons k2 v2 kvs2)) ++ ('\n' :: (spacesChars cl ++ (rbrace :: rest))) = spacesChars ind ++ ('"' :: (escapeChars k.data ++ ('"' :: (':' :: (' ' :: (printVal step ind v ++ (',' :: ('\n' :: (printMembers step ind (.cons k2 v2 kvs2) ++ ('\n' :: (spacesChars cl ++ (rbrace :: rest)))))))))))) from by
            simp [printMembers, printStr, List.cons_append,
              List.append_assoc]]
          rw [skipWs_spaces, skipWs_nonws '"' (by decide)]
        have hv : parseVal f (' ' :: (printVal step ind v ++ (',' :: ('\n' :: (printMembers step ind (.cons k2 v2 kvs2) ++ ('\n' :: (spacesChars cl ++ (rbrace :: rest)))))))) = some (v, (',' :: ('\n' :: (printMembers step ind (.cons k2 v2 kvs2) ++ ('\n' :: (spacesChars cl ++ (rbrace :: rest))))))) := by
          rw [parseVal_congr f _ _ (skipWs_ws ' ' (by decide) _)]
          exact ih1 step ind v _ hsz1
        have hmem : parseMembers f ('\n' :: (printMembers step ind (.cons k2 v2 kvs2) ++ ('\n' :: (spacesChars cl ++ (rbrace :: rest))))) =
            some (.cons k2 v2 kvs2, rest) := by
          rw [parseMembers_congr f _ _ (skipWs_ws '\n' (by decide) _)]
          exact ih3 step ind cl k2 v2 kvs2 rest hsz2
        simp only [parseMembers]
        simp +decide [hsk0, parseStrBody_escape,
          skipWs_nonws ':' (by decide), hv,
          skipWs_nonws ',' (by decide), hmem, String_mk_data]

/-- `json.loads` inverts `json.dumps` for every serializable value and every
indent width. -/
theorem loads_dumps (step : Nat) (v : JVal) : loads (dumps step v) = some v := by
  have h := (parse_print ((printVal step 0 v).length + 1)).1 step 0 v []
    (sizeJ_le_print step 0 v)
  rw [List.append_nil] at h
  rw [loads]
  rw [show (dumps step v).length = (printVal step 0 v).length from by
    rw [dumps, String.length_mk]]
  rw [show (dumps step v).data = printVal step 0 v from rfl]
  rw [h]
  simp [skipWs]

/-- String arrays read back exactly. -/
theorem strListOfJArr_ofStrings :
    ∀ l : List String, strListOfJArr (jarrOfStrings l) = some l := by
  intro l
  induction l with
  | nil => rfl
  | cons s ss ih => simp [jarrOfStrings, strListOfJArr, ih]

/-- A serialized field dictionary reads back its kind and options. -/
theorem fieldInfoOfJVal_toDict (fd : FormField) :
    fieldInfoOfJVal (fieldToDict fd) = some (fd.field_type, fd.options) := by
  simp +decide [fieldToDict, fieldInfoOfJVal, jlookup, strListOfJArr_ofStrings]

/-- Serialized field arrays read back their infos in order. -/
theorem fieldInfosOfJArr_ofFields :
    ∀ l : List FormField,
      fieldInfosOfJArr (jarrOfFields l) = some (l.map fieldInfo) := by
  intro l
  induction l with
  | nil => rfl
  | cons fd fds ih =>
    simp [jarrOfFields, fieldInfosOfJArr, fieldInfoOfJVal_toDict, ih,
      fieldInfo]

/-- A serialized form dictionary reads back its field count and infos. -/
theorem formInfoOfJVal_toDict (fm : Form) :
    formInfoOfJVal (formToDict fm) = some (formInfo fm) := by
  simp +decide [formToDict, formInfoOfJVal, jlookup,
    fieldInfosOfJArr_ofFields, formInfo]

/-- Serialized form arrays read back their infos in order. -/
theorem formInfosOfJArr_ofForms :
    ∀ l : List Form,
      formInfosOfJArr (jarrOfForms l) = some (l.map formInfo) := by
  intro l
  induction l with
  | nil => rfl
  | cons fm fms ih =>
    simp [jarrOfForms, formInfosOfJArr, formInfoOfJVal_toDict, ih]

/-- The serialized result dictionary reads back all form infos. -/
theorem resultInfoOfJVal_toDict (r : AnalysisResult) :
    resultInfoOfJVal (resultToDict r) = some (resultInfo r) := by
  simp +decide [resultToDict, resultInfoOfJVal, jlookup,
    formInfosOfJArr_ofForms, resultInfo]

/-- C6: serializing an `AnalysisResult` with `to_json` (default indent 2)
and parsing the string back yields exactly the original per-form field
count, per-field kind and per-field option lists. -/
theorem to_json_roundtrip_preserves_fields (r : AnalysisResult) :
    loads (to_json r 2) = some (resultToDict r) ∧
    (loads (to_json r 2)).bind resultInfoOfJVal = some (resultInfo r) := by
  have h : loads (to_json r 2) = some (resultToDict r) := by
    rw [to_json]
    exact loads_dumps 2 (resultToDict r)
  refine ⟨h, ?_⟩
  rw [h]
  simp [resultInfoOfJVal_toDict]
